import Mathlib

/-! Admission validation of Ethereum transactions (`EthValidateBasicDecorator`).

A shallow embedding of `app/evmante/evmante_validate_basic.go` and a verification
of its contract.  The decorator's `AnteHandle` is translated statement by
statement; the loop over the messages becomes the recursive function `msgLoop`,
whose result tells the run to the end of the loop from its early
`return ctx, err` and from a panic of a library call.

Machine integers (`uint64`) are natural numbers, and the one place where the
code adds them (`txGasLimit += msgEthTx.GetGas()`) reduces modulo `2 ^ 64`.
Amounts of coins are integers of at most 256 bits, as `sdkmath.Int` is; fees in
wei are natural numbers, the spec's "non-negative integer".
-/

namespace Evmante

/-! ## Errors -/

/-- Registered root errors that `AnteHandle` names or can be handed by its
collaborators.  `other` stands for every registered error the decorator does
not name itself. -/
inductive Sentinel where
  | ErrInvalidRequest
  | ErrUnknownRequest
  | ErrNoSignatures
  | ErrTxTypeNotSupported
  | other (codespace : String) (code : Nat)
deriving DecidableEq, Repr

/-- The type `sdk.Coin`: a denomination and an amount, a signed integer. -/
structure Coin where
  Denom : String
  Amount : Int
deriving DecidableEq, Repr

/-- The type `sdk.Coins`: a sequence of coins. -/
abbrev Coins := List Coin

/-- An argument handed to a `Wrapf` format string. -/
inductive FmtArg where
  | str (s : String)
  | goType (name : String)
  | coins (c : Coins)
  | uint (n : Nat)
deriving DecidableEq, Repr

/-- One layer of `sdkioerrors.Wrap` / `Wrapf`: the description (format string)
and the values formatted into it. -/
structure Wrapping where
  format : String
  args : List FmtArg
deriving DecidableEq, Repr

/-- An error value: the root error and the wrappings around it, outermost
first. -/
structure SdkError where
  root : Sentinel
  wraps : List Wrapping
deriving DecidableEq, Repr

/-- A bare registered error. -/
def SdkError.ofSentinel (s : Sentinel) : SdkError := ⟨s, []⟩

/-- The function `sdkioerrors.Wrap(err, description)`. -/
def Wrap (err : SdkError) (description : String) : SdkError :=
  { err with wraps := ⟨description, []⟩ :: err.wraps }

/-- The function `sdkioerrors.Wrapf(err, format, args...)`. -/
def Wrapf (err : SdkError) (format : String) (args : List FmtArg) : SdkError :=
  { err with wraps := ⟨format, args⟩ :: err.wraps }

/-- The function `errors.Is(err, target)` for a registered target: the chain of
wrappings is walked down to the root error, which is compared with the target. -/
def errorsIs (err : SdkError) (target : Sentinel) : Bool :=
  decide (err.root = target)

/-! ## Panics -/

/-- A value, or the panic in which a call ends. -/
inductive OrPanic (α : Type) where
  | value (a : α)
  | panic (message : String)

/-- The end of a loop with early returns: it ran to its end with the running
values, it returned an error early, or a call in its body panicked. -/
inductive Step (α : Type) where
  | ok (a : α)
  | error (err : SdkError)
  | panic (message : String)

/-! ## Coins -/

/-- Modelled from the spec: `sdkmath.NewIntFromBigInt` is library code that is not
under `src/`; it turns the "arbitrary-precision" fee into the amount of a coin,
and such an amount holds at most 256 bits: on an integer of magnitude `2 ^ 256`
or more the call panics. -/
def NewIntFromBigInt (i : Int) : OrPanic Int :=
  if 2 ^ 256 ≤ i.natAbs then .panic "NewIntFromBigInt() out of bound" else .value i

/-- Modelled from the spec: the addition of two coin amounts (`sdkmath.Int.Add`)
is library code that is not under `src/`; a sum of magnitude `2 ^ 256` or more
panics. -/
def sdkIntAdd (i i2 : Int) : OrPanic Int :=
  if 2 ^ 256 ≤ (i + i2).natAbs then .panic "Int overflow" else .value (i + i2)

/-- Modelled from the spec: `sdk.Coin.IsEqual` is library code that is not under
`src/`; it compares the amounts of two coins of one denomination and panics on
coins of different denominations. -/
def Coin.IsEqual (coin other : Coin) : OrPanic Bool :=
  if coin.Denom ≠ other.Denom then
    .panic ("invalid coin denominations; " ++ coin.Denom ++ ", " ++ other.Denom)
  else .value (decide (coin.Amount = other.Amount))

/-- Sorting of coins by denomination (`Coins.Sort`). -/
def Coins.Sort (coins : Coins) : Coins :=
  List.insertionSort (fun a b => a.Denom ≤ b.Denom) coins

/-- Total amount of one denomination held in a sequence of coins. -/
def Coins.AmountOf (coins : Coins) (denom : String) : Int :=
  ((coins.filter (fun c => decide (c.Denom = denom))).map Coin.Amount).sum

/-- The amounts of one denomination added up one after the other from `acc`,
each addition an `sdkIntAdd`. -/
def sumAmounts : List Int → Int → OrPanic Int
  | [], acc => .value acc
  | amount :: rest, acc =>
    match sdkIntAdd acc amount with
    | .panic message => .panic message
    | .value sum => sumAmounts rest sum

/-- The coins of `all` added up denomination by denomination, for the
denominations `denoms`; a denomination whose sum is zero yields no coin. -/
def Coins.addGroups (all : Coins) : List String → OrPanic Coins
  | [] => .value []
  | denom :: denoms =>
    match sumAmounts ((all.filter (fun c => decide (c.Denom = denom))).map Coin.Amount) 0 with
    | .panic message => .panic message
    | .value sum =>
      match Coins.addGroups all denoms with
      | .panic message => .panic message
      | .value coalesced => .value (if sum = 0 then coalesced else ⟨denom, sum⟩ :: coalesced)

/-- Modelled from the spec: `sdk.Coins.Add` is library code that is not under
`src/`; the spec calls the step "add the converted amount to the running fee
total (arbitrary-precision addition)" on a "set of (denom, amount) pairs".  The
amounts of equal denominations are summed, each addition panicking on a sum of
`2 ^ 256` or more, a denomination whose sum is zero is dropped, and the result
is sorted by denomination. -/
def Coins.Add (coins coinsB : Coins) : OrPanic Coins :=
  match Coins.addGroups (coins ++ coinsB) (((coins ++ coinsB).map Coin.Denom).dedup) with
  | .panic message => .panic message
  | .value coalesced => .value (Coins.Sort coalesced)

/-- The coin-by-coin comparison of two sorted sequences of the same length: it
stops at the first pair of different amounts and panics on a pair of different
denominations. -/
def Coins.equalPairs : List (Coin × Coin) → OrPanic Bool
  | [] => .value true
  | (coin, other) :: rest =>
    match Coin.IsEqual coin other with
    | .panic message => .panic message
    | .value false => .value false
    | .value true => Coins.equalPairs rest

/-- Modelled from the spec: `sdk.Coins.IsEqual` is library code that is not under
`src/`; the spec asks for the declared amount to "equal the accumulated fee total
exactly (same denomination, same magnitude)".  Sequences of different lengths
are unequal; sequences of the same length are sorted and compared coin by coin
with `Coin.IsEqual`. -/
def Coins.IsEqual (coins coinsB : Coins) : OrPanic Bool :=
  if coins.length ≠ coinsB.length then .value false
  else Coins.equalPairs (List.zip (Coins.Sort coins) (Coins.Sort coinsB))

/-! ## Transaction data (package `evm`) -/

/-- A protobuf `Any`: the opaque payload of a message or an extension option. -/
structure Any where
  TypeUrl : String
  Value : List Nat
deriving DecidableEq, Repr

/-- Modelled from the spec: the type `evm.TxData` is not under `src/`; the spec
gives "a tagged variant with cases `Legacy{gasPrice}`, `AccessList{gasPrice}`,
`DynamicFee{feeCap, tipCap}`, each also carrying an implicit gas-limit"; prices
are natural numbers, the fee total of the spec being an "arbitrary-precision
non-negative integer". -/
inductive TxData where
  | LegacyTx (GasPrice : Nat) (GasLimit : Nat)
  | AccessListTx (GasPrice : Nat) (GasLimit : Nat)
  | DynamicFeeTx (GasFeeCap GasTipCap : Nat) (GasLimit : Nat)
deriving DecidableEq, Repr

/-- The tag `gethcore.LegacyTxType`. -/
def LegacyTxType : Nat := 0

/-- The tag `gethcore.AccessListTxType`. -/
def AccessListTxType : Nat := 1

/-- The tag `gethcore.DynamicFeeTxType`. -/
def DynamicFeeTxType : Nat := 2

/-- Modelled from the spec: `TxData.TxType()` is not under `src/`; it reports
which of the three variants the data is. -/
def TxData.TxType : TxData → Nat
  | .LegacyTx _ _ => LegacyTxType
  | .AccessListTx _ _ => AccessListTxType
  | .DynamicFeeTx _ _ _ => DynamicFeeTxType

/-- Modelled from the spec: `TxData.EffectiveFeeWei(baseFee)` is not under
`src/`; the spec gives "for `Legacy`/`AccessList`, `gasPrice × gasLimit`; for
`DynamicFee`, `min(feeCap, baseFee + tipCap) × gasLimit`". -/
def TxData.EffectiveFeeWei (txData : TxData) (baseFeeWei : Nat) : Nat :=
  match txData with
  | .LegacyTx gasPrice gasLimit => gasPrice * gasLimit
  | .AccessListTx gasPrice gasLimit => gasPrice * gasLimit
  | .DynamicFeeTx feeCap tipCap gasLimit => min feeCap (baseFeeWei + tipCap) * gasLimit

/-- The parts of package `evm` that `AnteHandle` uses and that are not under
`src/`: its constants and the decoder of message payloads. -/
structure EvmPackage where
  /-- The constant `evm.BASE_FEE_WEI`. -/
  BASE_FEE_WEI : Nat
  /-- The constant `evm.EVMBankDenom`. -/
  EVMBankDenom : String
  /-- The fixed number of wei in one native unit used by `evm.WeiToNative`. -/
  weiPerNative : Nat
  /-- The function `evm.UnpackTxData`. -/
  UnpackTxData : Any → Except SdkError TxData

/-- Modelled from the spec: `evm.WeiToNative` is not under `src/`; the spec gives
"integer division with truncation by a fixed ratio (e.g., 10^12 wei per native
unit)". -/
def EvmPackage.WeiToNative (evm : EvmPackage) (weiAmount : Nat) : Nat :=
  weiAmount / evm.weiPerNative

/-! ## Envelope -/

/-- Modelled from the spec: the type `evm.MsgEthereumTx` is not under `src/`; the
spec gives it the fields "`from` (string)", "`gas` (declared gas limit for this
message)" and "`data` (opaque payload)". -/
structure MsgEthereumTx where
  From : String
  Gas : Nat
  Data : Any
deriving DecidableEq, Repr

/-- Modelled from the spec: the method `MsgEthereumTx.GetGas()` is not under
`src/`; it returns "the message's declared gas". -/
def MsgEthereumTx.GetGas (msg : MsgEthereumTx) : Nat := msg.Gas

/-- An `sdk.Msg`: either an `*evm.MsgEthereumTx` or a message of another Go type. -/
inductive Msg where
  | eth (msgEthTx : MsgEthereumTx)
  | other (goType : String)
deriving DecidableEq, Repr

/-- The body of the raw transaction, with the fields `AnteHandle` reads. -/
structure TxBody where
  Messages : List Msg
  Memo : String
  TimeoutHeight : Nat
  ExtensionOptions : List Any
  NonCriticalExtensionOptions : List Any
deriving DecidableEq, Repr

/-- The declared fee: amount, gas limit (`uint64`), payer and granter.  The
amounts are `sdkmath.Int` values, of at most 256 bits. -/
structure Fee where
  Amount : Coins
  GasLimit : Nat
  Payer : String
  Granter : String
  fits : ∀ c ∈ Amount, c.Amount.natAbs < 2 ^ 256
deriving DecidableEq, Repr

/-- The auth info of the raw transaction. -/
structure AuthInfo where
  SignerInfos : List Any
  Fee : Fee
deriving DecidableEq, Repr

/-- The raw protocol representation `tx.Tx` returned by `GetProtoTx()`. -/
structure ProtoTx where
  Body : TxBody
  AuthInfo : AuthInfo
  Signatures : List (List Nat)
deriving DecidableEq, Repr

/-- The method `ProtoTx.GetMsgs()`. -/
def ProtoTx.GetMsgs (protoTx : ProtoTx) : List Msg := protoTx.Body.Messages

/-- An `sdk.Tx` as the decorator observes it: its Go type (for `%T`), the result
of its `ValidateBasic()` (`none` is `nil`), and its raw protocol representation
when it implements `protoTxProvider`. -/
structure Tx where
  goType : String
  ValidateBasic : Option SdkError
  protoTxProvider : Option ProtoTx
deriving DecidableEq, Repr

/-- The `sdk.Context`: the recheck flag and the rest of the chain state the
context stands for. -/
structure Context where
  IsReCheckTx : Bool
  BlockHeight : Int
  state : Nat
deriving DecidableEq, Repr

/-- What a call of an ante handler ends in: the context and error it returns
(`none` is `nil`), or a panic. -/
abbrev Outcome := OrPanic (Context × Option SdkError)

/-- The type `sdk.AnteHandler` of the continuation. -/
abbrev AnteHandler := Context → Tx → Bool → Outcome

/-- Modelled from the spec: the type `EVMKeeper` is not under `src/`; its query
`BaseFeeMicronibiPerGas(ctx)` "supplies the current base fee for the active
height, or an explicit absence signal", `none` being `nil`. -/
structure EVMKeeper where
  BaseFeeMicronibiPerGas : Context → Option Int

/-- The decorator: it holds the keeper. -/
structure EthValidateBasicDecorator where
  evmKeeper : EVMKeeper

/-- The constructor `NewEthValidateBasicDecorator`. -/
def NewEthValidateBasicDecorator (k : EVMKeeper) : EthValidateBasicDecorator :=
  { evmKeeper := k }

/-! ## The decorator -/

/-- The body of `for _, msg := range protoTx.GetMsgs()` in `AnteHandle`, with the
running `txFee` and `txGasLimit`; `.error err` is the loop's `return ctx, err`
and `.panic` a panic of `NewIntFromBigInt` or of `Coins.Add`. -/
def msgLoop (evm : EvmPackage) (baseFeeMicronibi : Option Int) :
    List Msg → Coins → Nat → Step (Coins × Nat)
  | [], txFee, txGasLimit => .ok (txFee, txGasLimit)
  | msg :: rest, txFee, txGasLimit =>
    match msg with
    | .other goType =>
      .error (Wrapf (.ofSentinel .ErrUnknownRequest)
        "invalid message type %T, expected %T" [.goType goType, .goType "*evm.MsgEthereumTx"])
    | .eth msgEthTx =>
      if msgEthTx.From ≠ "" then
        .error (Wrapf (.ofSentinel .ErrInvalidRequest)
          "invalid From %s, expect empty string" [.str msgEthTx.From])
      else
        let txGasLimit := (txGasLimit + msgEthTx.GetGas) % 2 ^ 64
        match evm.UnpackTxData msgEthTx.Data with
        | .error err => .error (Wrap err "failed to unpack MsgEthereumTx Data")
        | .ok txData =>
          if baseFeeMicronibi = none ∧ txData.TxType = DynamicFeeTxType then
            .error (Wrap (.ofSentinel .ErrTxTypeNotSupported) "dynamic fee tx not supported")
          else
            let effectiveFeeMicronibi := evm.WeiToNative (txData.EffectiveFeeWei evm.BASE_FEE_WEI)
            match NewIntFromBigInt effectiveFeeMicronibi with
            | .panic message => .panic message
            | .value amount =>
              match Coins.Add txFee [{ Denom := evm.EVMBankDenom, Amount := amount }] with
              | .panic message => .panic message
              | .value txFee => msgLoop evm baseFeeMicronibi rest txFee txGasLimit

/-- The method `EthValidateBasicDecorator.AnteHandle`. -/
def AnteHandle (evm : EvmPackage) (vbd : EthValidateBasicDecorator) (ctx : Context) (tx : Tx)
    (simulate : Bool) (next : AnteHandler) : Outcome :=
  if ctx.IsReCheckTx then next ctx tx simulate
  else
    match tx.ValidateBasic with
    | some err =>
      if !errorsIs err .ErrNoSignatures then
        .value (ctx, some (Wrap err "tx basic validation failed"))
      else afterValidateBasic
    | none => afterValidateBasic
where
  afterValidateBasic : Outcome :=
    match tx.protoTxProvider with
    | none =>
      .value (ctx, some (Wrapf (.ofSentinel .ErrUnknownRequest)
        "invalid tx type %T, didn't implement interface protoTxProvider" [.goType tx.goType]))
    | some protoTx =>
      let body := protoTx.Body
      if body.Memo ≠ "" ∨ body.TimeoutHeight ≠ 0 ∨ body.NonCriticalExtensionOptions.length > 0 then
        .value (ctx, some (Wrap (.ofSentinel .ErrInvalidRequest)
          "for eth tx body Memo TimeoutHeight NonCriticalExtensionOptions should be empty"))
      else if body.ExtensionOptions.length ≠ 1 then
        .value (ctx, some (Wrap (.ofSentinel .ErrInvalidRequest)
          "for eth tx length of ExtensionOptions should be 1"))
      else
        let authInfo := protoTx.AuthInfo
        if authInfo.SignerInfos.length > 0 then
          .value (ctx, some (Wrap (.ofSentinel .ErrInvalidRequest)
            "for eth tx AuthInfo SignerInfos should be empty"))
        else if authInfo.Fee.Payer ≠ "" ∨ authInfo.Fee.Granter ≠ "" then
          .value (ctx, some (Wrap (.ofSentinel .ErrInvalidRequest)
            "for eth tx AuthInfo Fee payer and granter should be empty"))
        else
          let sigs := protoTx.Signatures
          if sigs.length > 0 then
            .value (ctx, some (Wrap (.ofSentinel .ErrInvalidRequest)
              "for eth tx Signatures should be empty"))
          else
            let baseFeeMicronibi := vbd.evmKeeper.BaseFeeMicronibiPerGas ctx
            match msgLoop evm baseFeeMicronibi protoTx.GetMsgs [] 0 with
            | .panic message => .panic message
            | .error err => .value (ctx, some err)
            | .ok (txFee, txGasLimit) =>
              match Coins.IsEqual authInfo.Fee.Amount txFee with
              | .panic message => .panic message
              | .value isEqual =>
                if !isEqual then
                  .value (ctx, some (Wrapf (.ofSentinel .ErrInvalidRequest)
                    "invalid AuthInfo Fee Amount (%s != %s)"
                    [.coins authInfo.Fee.Amount, .coins txFee]))
                else if authInfo.Fee.GasLimit ≠ txGasLimit then
                  .value (ctx, some (Wrapf (.ofSentinel .ErrInvalidRequest)
                    "invalid AuthInfo Fee GasLimit (%d != %d)"
                    [.uint authInfo.Fee.GasLimit, .uint txGasLimit]))
                else next ctx tx simulate

/-! ## Predicates and totals used to state the contract -/

/-- The fee total `total` in denomination `denom` as a value of `sdk.Coins`: no
coin at all when the total is zero, one coin otherwise. -/
def coinsOf (denom : String) (total : Int) : Coins :=
  if total = 0 then [] else [⟨denom, total⟩]

/-- The envelope's own validation succeeded or failed only with the
no-signatures sentinel. -/
def BasicOk (tx : Tx) : Prop :=
  ∀ err, tx.ValidateBasic = some err → errorsIs err .ErrNoSignatures = true

/-- The envelope-shape invariants checked before the message loop. -/
def ShapeOk (protoTx : ProtoTx) : Prop :=
  protoTx.Body.Memo = "" ∧ protoTx.Body.TimeoutHeight = 0 ∧
  protoTx.Body.NonCriticalExtensionOptions = [] ∧
  protoTx.Body.ExtensionOptions.length = 1 ∧
  protoTx.AuthInfo.SignerInfos = [] ∧
  protoTx.AuthInfo.Fee.Payer = "" ∧ protoTx.AuthInfo.Fee.Granter = "" ∧
  protoTx.Signatures = []

/-- The message passes every per-message check of the loop: it is an Ethereum
message, its `From` is empty, its payload decodes, and it is not a dynamic-fee
transaction while the base fee is absent. -/
def PassesMsgChecks (evm : EvmPackage) (baseFee : Option Int) (msg : Msg) : Prop :=
  ∃ msgEthTx txData, msg = .eth msgEthTx ∧ msgEthTx.From = "" ∧
    evm.UnpackTxData msgEthTx.Data = .ok txData ∧
    ¬ (baseFee = none ∧ txData.TxType = DynamicFeeTxType)

/-- Gas limit a message declares. -/
def msgGas : Msg → Nat
  | .eth msgEthTx => msgEthTx.GetGas
  | .other _ => 0

/-- Native fee of a message: the effective fee of its decoded data at the
constant `BASE_FEE_WEI`, converted to native units. -/
def msgFee (evm : EvmPackage) : Msg → Int
  | .eth msgEthTx =>
    match evm.UnpackTxData msgEthTx.Data with
    | .ok txData => (evm.WeiToNative (txData.EffectiveFeeWei evm.BASE_FEE_WEI) : Nat)
    | .error _ => 0
  | .other _ => 0

/-- The decorator accepts: whatever the continuation, its result is returned. -/
def Accepts (evm : EvmPackage) (vbd : EthValidateBasicDecorator) (ctx : Context) (tx : Tx)
    (simulate : Bool) : Prop :=
  ∀ next : AnteHandler, AnteHandle evm vbd ctx tx simulate next = next ctx tx simulate

/-- The decorator rejects with `err`: whatever the continuation, the input
context and `err` are returned, so the continuation has no part in the result. -/
def RejectsWith (evm : EvmPackage) (vbd : EthValidateBasicDecorator) (ctx : Context) (tx : Tx)
    (simulate : Bool) (err : SdkError) : Prop :=
  ∀ next : AnteHandler, AnteHandle evm vbd ctx tx simulate next = .value (ctx, some err)

/-- The decorator panics with `message`: whatever the continuation, the call ends
in that panic, so the continuation has no part in the result. -/
def PanicsWith (evm : EvmPackage) (vbd : EthValidateBasicDecorator) (ctx : Context) (tx : Tx)
    (simulate : Bool) (message : String) : Prop :=
  ∀ next : AnteHandler, AnteHandle evm vbd ctx tx simulate next = .panic message

/-- The verdict of the decorator's own checks on a first check of `tx`: what the
call ends in under a continuation that returns the context and no error. -/
def verdict (evm : EvmPackage) (vbd : EthValidateBasicDecorator) (ctx : Context) (tx : Tx) :
    Outcome :=
  AnteHandle evm vbd ctx tx false (fun c _ _ => .value (c, none))

/-- Modelled from the spec: the kind `StructuralError` of the spec's taxonomy, by
the sites that return it: Step 1, where a failure of the envelope's own
validation other than the no-signatures sentinel "is fatal, wrapped with kind
`StructuralError`"; Step 3, the envelope-shape invariants; and Step 4.2, a
non-empty `from`. -/
def StructuralError (err : SdkError) : Prop :=
  (∃ cause, errorsIs cause .ErrNoSignatures = false ∧
    err = Wrap cause "tx basic validation failed") ∨
  (∃ description, err = Wrap (.ofSentinel .ErrInvalidRequest) description) ∨
  (∃ sender, err = Wrapf (.ofSentinel .ErrInvalidRequest)
    "invalid From %s, expect empty string" [.str sender])

/-- The envelope with its message sequence replaced. -/
def ProtoTx.withMsgs (protoTx : ProtoTx) (msgs : List Msg) : ProtoTx :=
  { protoTx with Body := { protoTx.Body with Messages := msgs } }

/-- The transaction with the outcome of its `ValidateBasic()` replaced. -/
def Tx.withValidateBasic (tx : Tx) (outcome : Option SdkError) : Tx :=
  { tx with ValidateBasic := outcome }

/-- The transaction with its raw protocol representation replaced. -/
def Tx.withProtoTx (tx : Tx) (protoTx : ProtoTx) : Tx :=
  { tx with protoTxProvider := some protoTx }

/-! ## Concrete inputs -/

/-- A decoder of payloads: a tag followed by the fields of the variant. -/
def demoUnpack (any : Any) : Except SdkError TxData :=
  match any.Value with
  | [0, gasPrice, gasLimit] => .ok (.LegacyTx gasPrice gasLimit)
  | [1, gasPrice, gasLimit] => .ok (.AccessListTx gasPrice gasLimit)
  | [2, feeCap, tipCap, gasLimit] => .ok (.DynamicFeeTx feeCap tipCap gasLimit)
  | _ => .error (.ofSentinel (.other "sdk" 34))

/-- Package constants with `10 ^ 12` wei to the native unit. -/
def demoEvm : EvmPackage :=
  { BASE_FEE_WEI := 1000000000000
    EVMBankDenom := "unibi"
    weiPerNative := 1000000000000
    UnpackTxData := demoUnpack }

/-- A keeper that reports the base fee as absent. -/
def keeperAbsent : EVMKeeper := { BaseFeeMicronibiPerGas := fun _ => none }

/-- A keeper that reports the base fee `baseFee`. -/
def keeperWith (baseFee : Int) : EVMKeeper := { BaseFeeMicronibiPerGas := fun _ => some baseFee }

/-- The extension option of an Ethereum transaction. -/
def ethExtension : Any := { TypeUrl := "/eth.evm.v1.ExtensionOptionsEthereumTx", Value := [] }

/-- An Ethereum message whose payload decodes to the legacy variant. -/
def legacyMsg (sender : String) (gasPrice gas : Nat) : Msg :=
  .eth { From := sender, Gas := gas, Data := { TypeUrl := "/eth.evm.v1.LegacyTx", Value := [0, gasPrice, gas] } }

/-- An Ethereum message whose payload decodes to the dynamic-fee variant. -/
def dynamicMsg (feeCap tipCap gas : Nat) : Msg :=
  .eth { From := "", Gas := gas,
         Data := { TypeUrl := "/eth.evm.v1.DynamicFeeTx", Value := [2, feeCap, tipCap, gas] } }

/-- An envelope with one extension option and no signer infos, payer, granter
or signatures. -/
def envelope (memo : String) (msgs : List Msg) (amount : Coins) (gasLimit : Nat)
    (fits : ∀ c ∈ amount, c.Amount.natAbs < 2 ^ 256) : ProtoTx :=
  { Body := { Messages := msgs, Memo := memo, TimeoutHeight := 0,
              ExtensionOptions := [ethExtension], NonCriticalExtensionOptions := [] }
    AuthInfo := { SignerInfos := [],
                  Fee := { Amount := amount, GasLimit := gasLimit, Payer := "", Granter := "",
                           fits := fits } }
    Signatures := [] }

/-- A transaction exposing its raw protocol representation. -/
def ethTx (outcome : Option SdkError) (protoTx : ProtoTx) : Tx :=
  { goType := "*tx.wrapper", ValidateBasic := outcome, protoTxProvider := some protoTx }

/-- The context of a first check. -/
def checkCtx : Context := { IsReCheckTx := false, BlockHeight := 1, state := 0 }

/-- The context of a recheck. -/
def recheckCtx : Context := { IsReCheckTx := true, BlockHeight := 1, state := 0 }

/-- A continuation that advances the context and reports no error. -/
def demoNext : AnteHandler :=
  fun ctx _ _ => .value ({ ctx with state := ctx.state + 1 }, none)

/-- Scenario A: one legacy message of gas 21000 at gas price `10 ^ 12` wei,
declared amount 21000 and gas limit 21000. -/
def scenarioA : ProtoTx :=
  envelope "" [legacyMsg "" 1000000000000 21000] [⟨"unibi", 21000⟩] 21000 (by decide)

/-- Scenario B: scenario A with declared amount zero. -/
def scenarioB : ProtoTx :=
  envelope "" [legacyMsg "" 1000000000000 21000] [] 21000 (by decide)

/-- Scenario C and E: scenario A with memo `x`. -/
def scenarioC : ProtoTx :=
  envelope "x" [legacyMsg "" 1000000000000 21000] [⟨"unibi", 21000⟩] 21000 (by decide)

/-- Scenario D: one dynamic-fee message. -/
def scenarioD : ProtoTx :=
  envelope "" [dynamicMsg 5000000000000 0 21000] [⟨"unibi", 21000⟩] 21000 (by decide)

/-- Scenario D with memo `x`. -/
def scenarioDMemo : ProtoTx :=
  envelope "x" [dynamicMsg 5000000000000 0 21000] [⟨"unibi", 21000⟩] 21000 (by decide)

/-- Two legacy messages of gas `2 ^ 63` each, declared gas limit `0`. -/
def overflowEnvelope : ProtoTx :=
  envelope "" [legacyMsg "" 1000000000000 (2 ^ 63), legacyMsg "" 1000000000000 (2 ^ 63)]
    [⟨"unibi", 2 ^ 64⟩] 0 (by decide)

/-- The no-signatures outcome of `ValidateBasic()`. -/
def errNoSignatures : SdkError := Wrap (.ofSentinel .ErrNoSignatures) "no signatures supplied"

/-- Another failure of `ValidateBasic()`: an invalid fee payer address. -/
def errInvalidAddress : SdkError := Wrap (.ofSentinel (.other "sdk" 7)) "Invalid Payer address"

/-- Scenario F: no message, declared amount zero and gas limit zero. -/
def scenarioF : ProtoTx := envelope "" [] [] 0 (by decide)

/-- Two legacy messages, of gas 21000 at `10 ^ 12` wei and of gas 30000 at
`2 * 10 ^ 12` wei, with their totals declared. -/
def twoMsgEnvelope : ProtoTx :=
  envelope "" [legacyMsg "" 1000000000000 21000, legacyMsg "" 2000000000000 30000]
    [⟨"unibi", 81000⟩] 51000 (by decide)

/-- The messages of `twoMsgEnvelope` in the other order. -/
def twoMsgSwapped : List Msg :=
  [legacyMsg "" 2000000000000 30000, legacyMsg "" 1000000000000 21000]

/-- Scenario A with the declared gas limit lowered to 20000. -/
def scenarioAGas : ProtoTx :=
  envelope "" [legacyMsg "" 1000000000000 21000] [⟨"unibi", 21000⟩] 20000 (by decide)

/-- Scenario A with the fee declared in another denomination. -/
def scenarioAtom : ProtoTx :=
  envelope "" [legacyMsg "" 1000000000000 21000] [⟨"uatom", 21000⟩] 21000 (by decide)

/-- The transaction of scenario A with the fee declared in another denomination,
its own validation returning the no-signatures sentinel. -/
def scenarioAtomTx : Tx := ethTx (some errNoSignatures) scenarioAtom

/-- Scenario A with a signature attached. -/
def scenarioASigned : ProtoTx := { scenarioA with Signatures := [[1, 2, 3]] }

/-! ## Supporting lemmas -/

/-! ## Coins of one denomination -/

/-- An addition of amounts whose sum is below `2 ^ 256` in magnitude. -/
theorem sdkIntAdd_value (i i2 : Int) (h : (i + i2).natAbs < 2 ^ 256) :
    sdkIntAdd i i2 = .value (i + i2) := by
  unfold sdkIntAdd
  rw [if_neg (by omega)]

/-- An addition of amounts whose sum reaches `2 ^ 256` in magnitude. -/
theorem sdkIntAdd_panic (i i2 : Int) (h : 2 ^ 256 ≤ (i + i2).natAbs) :
    sdkIntAdd i i2 = .panic "Int overflow" := by
  unfold sdkIntAdd
  rw [if_pos h]

/-- Adding a coin of the same denomination to a fee total adds the amounts, the
sum staying below `2 ^ 256`. -/
theorem add_coinsOf (denom : String) (total fee : Int) (ht : 0 ≤ total) (hf : 0 ≤ fee)
    (hsum : total + fee < 2 ^ 256) :
    Coins.Add (coinsOf denom total) [⟨denom, fee⟩] = .value (coinsOf denom (total + fee)) := by
  have e1 : sdkIntAdd 0 fee = .value fee := by
    have := sdkIntAdd_value 0 fee (by omega)
    rwa [zero_add] at this
  have e2 : sdkIntAdd 0 total = .value total := by
    have := sdkIntAdd_value 0 total (by omega)
    rwa [zero_add] at this
  have e3 : sdkIntAdd total fee = .value (total + fee) := sdkIntAdd_value total fee (by omega)
  unfold coinsOf Coins.Add
  by_cases ht0 : total = 0
  · subst ht0
    by_cases hf0 : fee = 0
    · subst hf0
      simp [Coins.addGroups, sumAmounts, e1, Coins.Sort]
    · simp [hf0, Coins.addGroups, sumAmounts, e1, Coins.Sort]
  · by_cases hs : total + fee = 0
    · simp [ht0, hs, Coins.addGroups, sumAmounts, e2, e3, Coins.Sort]
    · simp [ht0, hs, Coins.addGroups, sumAmounts, e2, e3, Coins.Sort]

/-- Adding a coin of the same denomination to a fee total panics when the sum
reaches `2 ^ 256`. -/
theorem add_coinsOf_overflow (denom : String) (total fee : Int) (ht : 0 ≤ total)
    (htf : total < 2 ^ 256) (hsum : 2 ^ 256 ≤ total + fee) :
    Coins.Add (coinsOf denom total) [⟨denom, fee⟩] = .panic "Int overflow" := by
  have e2 : sdkIntAdd 0 total = .value total := by
    have := sdkIntAdd_value 0 total (by omega)
    rwa [zero_add] at this
  have e3 : sdkIntAdd total fee = .panic "Int overflow" := sdkIntAdd_panic total fee (by omega)
  unfold coinsOf Coins.Add
  by_cases ht0 : total = 0
  · subst ht0
    have e1 : sdkIntAdd 0 fee = .panic "Int overflow" := sdkIntAdd_panic 0 fee (by omega)
    simp [Coins.addGroups, sumAmounts, e1]
  · simp [ht0, Coins.addGroups, sumAmounts, e2, e3]

/-- A declared amount compares equal to a fee total exactly when it is that
value. -/
theorem isEqual_coinsOf (declared : Coins) (denom : String) (total : Int) :
    Coins.IsEqual declared (coinsOf denom total) = .value true ↔
      declared = coinsOf denom total := by
  unfold coinsOf Coins.IsEqual
  by_cases ht : total = 0
  · simp [ht]
    cases declared <;> simp [Coins.Sort, Coins.equalPairs]
  · simp [ht]
    match declared with
    | [] => simp
    | [c] =>
      obtain ⟨d, a⟩ := c
      by_cases hd : d = denom
      · by_cases ha : a = total
        · simp [Coins.Sort, Coins.equalPairs, Coin.IsEqual, hd, ha]
        · simp [Coins.Sort, Coins.equalPairs, Coin.IsEqual, hd, ha]
      · simp [Coins.Sort, Coins.equalPairs, Coin.IsEqual, hd]
    | _ :: _ :: _ => simp

/-- A declared amount other than the fee total compares unequal to it when it has
another number of coins or coins of the total's denomination only. -/
theorem isEqual_coinsOf_false (declared : Coins) (denom : String) (total : Int)
    (hne : declared ≠ coinsOf denom total)
    (hshape : declared.length ≠ (coinsOf denom total).length ∨
      ∀ c ∈ declared, c.Denom = denom) :
    Coins.IsEqual declared (coinsOf denom total) = .value false := by
  by_cases hlen : declared.length ≠ (coinsOf denom total).length
  · unfold Coins.IsEqual
    rw [if_pos hlen]
  · have hd : ∀ c ∈ declared, c.Denom = denom := by
      rcases hshape with h | h
      · exact absurd h hlen
      · exact h
    unfold coinsOf at hne hlen ⊢
    unfold Coins.IsEqual
    by_cases ht : total = 0
    · simp [ht] at hne hlen
      exact absurd hlen hne
    · simp [ht] at hne hlen ⊢
      match declared, hne, hlen, hd with
      | [c], hne, _, hd =>
        obtain ⟨d, a⟩ := c
        have hd' : d = denom := hd ⟨d, a⟩ (List.mem_singleton.mpr rfl)
        subst hd'
        have ha : a ≠ total := by
          intro h
          apply hne
          rw [h]
        simp [Coins.Sort, Coins.equalPairs, Coin.IsEqual, ha]

/-- A declared coin of another denomination than a non-zero fee total makes the
comparison panic. -/
theorem isEqual_coinsOf_panic (c : Coin) (denom : String) (total : Int)
    (hd : c.Denom ≠ denom) (ht : total ≠ 0) :
    Coins.IsEqual [c] (coinsOf denom total) =
      .panic ("invalid coin denominations; " ++ c.Denom ++ ", " ++ denom) := by
  unfold coinsOf Coins.IsEqual
  simp [ht, Coins.Sort, Coins.equalPairs, Coin.IsEqual, hd]

/-- The amount a fee total holds in its denomination. -/
theorem amountOf_coinsOf (denom : String) (total : Int) :
    Coins.AmountOf (coinsOf denom total) denom = total := by
  unfold coinsOf Coins.AmountOf
  by_cases ht : total = 0
  · simp [ht]
  · simp [ht]

/-- A fee total holds coins of its denomination only. -/
theorem denom_of_mem_coinsOf (denom : String) (total : Int) (c : Coin)
    (hc : c ∈ coinsOf denom total) : c.Denom = denom := by
  unfold coinsOf at hc
  by_cases ht : total = 0
  · simp [ht] at hc
  · simp [ht] at hc
    rw [hc]

/-- A fee total that is a declared amount is below `2 ^ 256`. -/
theorem coinsOf_fits (fee : Fee) (denom : String) (total : Int)
    (h : fee.Amount = coinsOf denom total) : total < 2 ^ 256 := by
  by_cases h0 : total = 0
  · rw [h0]
    norm_num
  · have hmem : (⟨denom, total⟩ : Coin) ∈ fee.Amount := by
      rw [h]
      unfold coinsOf
      simp [h0]
    have := fee.fits _ hmem
    simp only at this
    omega

/-! ## The message loop -/

/-- An integer below `2 ^ 256` in magnitude is an amount. -/
theorem newInt_value (i : Int) (h : i.natAbs < 2 ^ 256) : NewIntFromBigInt i = .value i := by
  unfold NewIntFromBigInt
  rw [if_neg (by omega)]

/-- An integer of magnitude `2 ^ 256` or more is no amount. -/
theorem newInt_panic (i : Int) (h : 2 ^ 256 ≤ i.natAbs) :
    NewIntFromBigInt i = .panic "NewIntFromBigInt() out of bound" := by
  unfold NewIntFromBigInt
  rw [if_pos h]

/-- The native fee of a message is not negative. -/
theorem msgFee_nonneg (evm : EvmPackage) (msg : Msg) : 0 ≤ msgFee evm msg := by
  cases msg with
  | other goType => simp [msgFee]
  | eth m =>
    cases hdec : evm.UnpackTxData m.Data with
    | error e => simp [msgFee, hdec]
    | ok txData => simp [msgFee, hdec]

/-- The native fees of messages sum to a number that is not negative. -/
theorem sum_msgFee_nonneg (evm : EvmPackage) (msgs : List Msg) :
    0 ≤ (msgs.map (msgFee evm)).sum := by
  apply List.sum_nonneg
  intro x hx
  obtain ⟨msg, _, rfl⟩ := List.mem_map.mp hx
  exact msgFee_nonneg evm msg

/-- A message of another type ends the loop with `ErrUnknownRequest`. -/
theorem msgLoop_other (evm : EvmPackage) (baseFee : Option Int) (goType : String)
    (rest : List Msg) (txFee : Coins) (gas : Nat) :
    msgLoop evm baseFee (.other goType :: rest) txFee gas =
      .error (Wrapf (.ofSentinel .ErrUnknownRequest) "invalid message type %T, expected %T"
        [.goType goType, .goType "*evm.MsgEthereumTx"]) := by
  simp only [msgLoop]

/-- A message with a non-empty `From` ends the loop with `ErrInvalidRequest`. -/
theorem msgLoop_from (evm : EvmPackage) (baseFee : Option Int) (m : MsgEthereumTx)
    (rest : List Msg) (txFee : Coins) (gas : Nat) (hfrom : m.From ≠ "") :
    msgLoop evm baseFee (.eth m :: rest) txFee gas =
      .error (Wrapf (.ofSentinel .ErrInvalidRequest) "invalid From %s, expect empty string"
        [.str m.From]) := by
  simp only [msgLoop, if_pos hfrom]

/-- A message whose payload does not decode ends the loop with the decoder's
error, wrapped. -/
theorem msgLoop_unpack (evm : EvmPackage) (baseFee : Option Int) (m : MsgEthereumTx)
    (rest : List Msg) (txFee : Coins) (gas : Nat) (err : SdkError) (hfrom : m.From = "")
    (hdec : evm.UnpackTxData m.Data = .error err) :
    msgLoop evm baseFee (.eth m :: rest) txFee gas =
      .error (Wrap err "failed to unpack MsgEthereumTx Data") := by
  simp only [msgLoop, hfrom, hdec, ne_eq, not_true_eq_false, if_false]

/-- With the base fee absent, a message decoding to the dynamic-fee variant ends
the loop with `ErrTxTypeNotSupported`. -/
theorem msgLoop_dynamic (evm : EvmPackage) (m : MsgEthereumTx) (txData : TxData)
    (rest : List Msg) (txFee : Coins) (gas : Nat) (hfrom : m.From = "")
    (hdec : evm.UnpackTxData m.Data = .ok txData) (hdyn : txData.TxType = DynamicFeeTxType) :
    msgLoop evm none (.eth m :: rest) txFee gas =
      .error (Wrap (.ofSentinel .ErrTxTypeNotSupported) "dynamic fee tx not supported") := by
  simp only [msgLoop, hfrom, hdec, hdyn, ne_eq, not_true_eq_false, if_false, and_self, if_true]

/-- A message passes its checks or ends the loop with an error. -/
theorem passes_or_error (evm : EvmPackage) (baseFee : Option Int) (msg : Msg) :
    PassesMsgChecks evm baseFee msg ∨
    ∃ err, ∀ (rest : List Msg) (txFee : Coins) (gas : Nat),
      msgLoop evm baseFee (msg :: rest) txFee gas = .error err := by
  cases msg with
  | other goType => exact Or.inr ⟨_, fun rest txFee gas => msgLoop_other evm baseFee goType rest txFee gas⟩
  | eth m =>
    by_cases hfrom : m.From ≠ ""
    · exact Or.inr ⟨_, fun rest txFee gas => msgLoop_from evm baseFee m rest txFee gas hfrom⟩
    · have hfrom' : m.From = "" := not_not.mp hfrom
      cases hdec : evm.UnpackTxData m.Data with
      | error e =>
        exact Or.inr ⟨_, fun rest txFee gas => msgLoop_unpack evm baseFee m rest txFee gas e hfrom' hdec⟩
      | ok txData =>
        by_cases hgate : baseFee = none ∧ txData.TxType = DynamicFeeTxType
        · right
          obtain ⟨hb, hdyn⟩ := hgate
          subst hb
          exact ⟨_, fun rest txFee gas => msgLoop_dynamic evm m txData rest txFee gas hfrom' hdec hdyn⟩
        · exact Or.inl ⟨m, txData, rfl, hfrom', hdec, hgate⟩

/-- One turn of the loop on a message that passes its checks, the new total
staying below `2 ^ 256`. -/
theorem msgLoop_step (evm : EvmPackage) (baseFee : Option Int) (msg : Msg) (rest : List Msg)
    (total : Int) (gas : Nat) (h : PassesMsgChecks evm baseFee msg) (ht : 0 ≤ total)
    (hfit : total + msgFee evm msg < 2 ^ 256) :
    msgLoop evm baseFee (msg :: rest) (coinsOf evm.EVMBankDenom total) gas =
      msgLoop evm baseFee rest (coinsOf evm.EVMBankDenom (total + msgFee evm msg))
        ((gas + msgGas msg) % 2 ^ 64) := by
  have hnn := msgFee_nonneg evm msg
  obtain ⟨m, txData, rfl, hfrom, hdec, hgate⟩ := h
  simp only [msgFee, hdec] at hfit hnn
  simp only [msgLoop, msgFee, msgGas, hfrom, hdec]
  simp only [ne_eq, not_true_eq_false, if_false]
  rw [if_neg hgate, newInt_value _ (by omega)]
  simp only
  rw [add_coinsOf _ _ _ ht hnn hfit]

/-- One turn of the loop on a message that passes its checks panics when the new
total reaches `2 ^ 256`. -/
theorem msgLoop_step_panic (evm : EvmPackage) (baseFee : Option Int) (msg : Msg)
    (rest : List Msg) (total : Int) (gas : Nat) (h : PassesMsgChecks evm baseFee msg)
    (ht : 0 ≤ total) (htf : total < 2 ^ 256) (hover : 2 ^ 256 ≤ total + msgFee evm msg) :
    ∃ message, msgLoop evm baseFee (msg :: rest) (coinsOf evm.EVMBankDenom total) gas =
      .panic message := by
  have hnn := msgFee_nonneg evm msg
  obtain ⟨m, txData, rfl, hfrom, hdec, hgate⟩ := h
  simp only [msgFee, hdec] at hover hnn
  by_cases hfee : (evm.WeiToNative (txData.EffectiveFeeWei evm.BASE_FEE_WEI) : Int) < 2 ^ 256
  · refine ⟨"Int overflow", ?_⟩
    simp only [msgLoop, hfrom, hdec]
    simp only [ne_eq, not_true_eq_false, if_false]
    rw [if_neg hgate, newInt_value _ (by omega)]
    simp only
    rw [add_coinsOf_overflow _ _ _ ht htf hover]
  · refine ⟨"NewIntFromBigInt() out of bound", ?_⟩
    simp only [msgLoop, hfrom, hdec]
    simp only [ne_eq, not_true_eq_false, if_false]
    rw [if_neg hgate, newInt_panic _ (by omega)]

/-- When every message passes its checks and the fees total below `2 ^ 256`, the
loop ends with the fee total and the gas total modulo `2 ^ 64`. -/
theorem msgLoop_ok (evm : EvmPackage) (baseFee : Option Int) (msgs : List Msg)
    (h : ∀ msg ∈ msgs, PassesMsgChecks evm baseFee msg) (total : Int) (gas : Nat)
    (ht : 0 ≤ total) (hfit : total + (msgs.map (msgFee evm)).sum < 2 ^ 256)
    (hgas : gas < 2 ^ 64) :
    msgLoop evm baseFee msgs (coinsOf evm.EVMBankDenom total) gas =
      .ok (coinsOf evm.EVMBankDenom (total + (msgs.map (msgFee evm)).sum),
           (gas + (msgs.map msgGas).sum) % 2 ^ 64) := by
  induction msgs generalizing total gas with
  | nil =>
    simp only [msgLoop, List.map_nil, List.sum_nil, add_zero, Nat.add_zero]
    rw [Nat.mod_eq_of_lt hgas]
  | cons msg rest ih =>
    have hnn := msgFee_nonneg evm msg
    have hrest := sum_msgFee_nonneg evm rest
    simp only [List.map_cons, List.sum_cons] at hfit
    rw [msgLoop_step evm baseFee msg rest total gas (h msg (List.mem_cons_self _ _)) ht
      (by omega)]
    rw [ih (fun m hm => h m (List.mem_cons_of_mem _ hm)) _ _ (by omega) (by omega)
      (Nat.mod_lt _ (by positivity))]
    simp only [List.map_cons, List.sum_cons, Nat.add_mod_mod, Nat.mod_add_mod, add_assoc]

/-- A loop that runs to its end has met only messages that pass their checks,
with fees totalling below `2 ^ 256`, and ends with the fee total and the gas
total modulo `2 ^ 64`. -/
theorem msgLoop_ok_inv (evm : EvmPackage) (baseFee : Option Int) (msgs : List Msg)
    (total : Int) (gas : Nat) (r : Coins × Nat) (ht : 0 ≤ total) (htf : total < 2 ^ 256)
    (hgas : gas < 2 ^ 64)
    (h : msgLoop evm baseFee msgs (coinsOf evm.EVMBankDenom total) gas = .ok r) :
    (∀ msg ∈ msgs, PassesMsgChecks evm baseFee msg) ∧
    total + (msgs.map (msgFee evm)).sum < 2 ^ 256 ∧
    r = (coinsOf evm.EVMBankDenom (total + (msgs.map (msgFee evm)).sum),
         (gas + (msgs.map msgGas).sum) % 2 ^ 64) := by
  induction msgs generalizing total gas with
  | nil =>
    simp only [msgLoop] at h
    injection h with h
    refine ⟨fun msg hmsg => absurd hmsg (List.not_mem_nil msg), by simpa using htf, ?_⟩
    simp only [List.map_nil, List.sum_nil, add_zero, Nat.add_zero]
    rw [Nat.mod_eq_of_lt hgas, h]
  | cons msg rest ih =>
    have hnn := msgFee_nonneg evm msg
    rcases passes_or_error evm baseFee msg with hpass | ⟨err, herr⟩
    · by_cases hfit : total + msgFee evm msg < 2 ^ 256
      · rw [msgLoop_step evm baseFee msg rest total gas hpass ht hfit] at h
        obtain ⟨h₁, h₂, h₃⟩ := ih _ _ (by omega) hfit (Nat.mod_lt _ (by positivity)) h
        refine ⟨?_, ?_, ?_⟩
        · intro m hm
          rcases List.mem_cons.mp hm with heq | hin
          · rw [heq]
            exact hpass
          · exact h₁ m hin
        · simp only [List.map_cons, List.sum_cons]
          omega
        · rw [h₃]
          simp only [List.map_cons, List.sum_cons, Nat.add_mod_mod, Nat.mod_add_mod, add_assoc]
      · obtain ⟨message, hp⟩ := msgLoop_step_panic evm baseFee msg rest total gas hpass ht htf
          (by omega)
        rw [hp] at h
        cases h
    · rw [herr] at h
      cases h

/-- Messages that pass their checks, with fees totalling below `2 ^ 256`, are run
through by the loop, which goes on with the rest from their totals. -/
theorem msgLoop_append (evm : EvmPackage) (baseFee : Option Int) (pre rest : List Msg)
    (h : ∀ msg ∈ pre, PassesMsgChecks evm baseFee msg) (total : Int) (gas : Nat)
    (ht : 0 ≤ total) (hfit : total + (pre.map (msgFee evm)).sum < 2 ^ 256)
    (hgas : gas < 2 ^ 64) :
    msgLoop evm baseFee (pre ++ rest) (coinsOf evm.EVMBankDenom total) gas =
      msgLoop evm baseFee rest (coinsOf evm.EVMBankDenom (total + (pre.map (msgFee evm)).sum))
        ((gas + (pre.map msgGas).sum) % 2 ^ 64) := by
  induction pre generalizing total gas with
  | nil =>
    simp only [List.nil_append, List.map_nil, List.sum_nil, add_zero, Nat.add_zero]
    rw [Nat.mod_eq_of_lt hgas]
  | cons msg pre ih =>
    have hnn := msgFee_nonneg evm msg
    have hrest := sum_msgFee_nonneg evm pre
    simp only [List.map_cons, List.sum_cons] at hfit
    rw [List.cons_append, msgLoop_step evm baseFee msg _ total gas
      (h msg (List.mem_cons_self _ _)) ht (by omega)]
    rw [ih (fun m hm => h m (List.mem_cons_of_mem _ hm)) _ _ (by omega) (by omega)
      (Nat.mod_lt _ (by positivity))]
    simp only [List.map_cons, List.sum_cons, Nat.add_mod_mod, Nat.mod_add_mod, add_assoc]

/-! ## The decorator, stage by stage -/

/-- On a recheck the continuation's result is returned. -/
theorem AnteHandle_recheck (evm : EvmPackage) (vbd : EthValidateBasicDecorator) (ctx : Context)
    (tx : Tx) (simulate : Bool) (next : AnteHandler) (hre : ctx.IsReCheckTx = true) :
    AnteHandle evm vbd ctx tx simulate next = next ctx tx simulate := by
  unfold AnteHandle
  rw [if_pos hre]

/-- A failure of the envelope's own validation other than the no-signatures
sentinel is returned wrapped. -/
theorem AnteHandle_basicBad (evm : EvmPackage) (vbd : EthValidateBasicDecorator) (ctx : Context)
    (tx : Tx) (simulate : Bool) (next : AnteHandler) (hre : ctx.IsReCheckTx = false)
    (err : SdkError) (hvb : tx.ValidateBasic = some err)
    (hnot : errorsIs err .ErrNoSignatures = false) :
    AnteHandle evm vbd ctx tx simulate next =
      .value (ctx, some (Wrap err "tx basic validation failed")) := by
  unfold AnteHandle
  simp only [hre, hvb, hnot, Bool.false_eq_true, if_false, Bool.not_false, if_true]

/-- A passed or tolerated validation of the envelope leads on to the checks
after it. -/
theorem AnteHandle_basicOk (evm : EvmPackage) (vbd : EthValidateBasicDecorator) (ctx : Context)
    (tx : Tx) (simulate : Bool) (next : AnteHandler) (hre : ctx.IsReCheckTx = false)
    (hvb : BasicOk tx) :
    AnteHandle evm vbd ctx tx simulate next =
      AnteHandle.afterValidateBasic evm vbd ctx tx simulate next := by
  unfold AnteHandle
  cases h : tx.ValidateBasic with
  | none => simp only [hre, Bool.false_eq_true, if_false]
  | some err =>
    have := hvb err h
    simp only [hre, this, Bool.false_eq_true, if_false, Bool.not_true]

/-- An envelope without raw protocol representation is answered with
`ErrUnknownRequest`. -/
theorem afterValidateBasic_noProto (evm : EvmPackage) (vbd : EthValidateBasicDecorator)
    (ctx : Context) (tx : Tx) (simulate : Bool) (next : AnteHandler)
    (hp : tx.protoTxProvider = none) :
    AnteHandle.afterValidateBasic evm vbd ctx tx simulate next =
      .value (ctx, some (Wrapf (.ofSentinel .ErrUnknownRequest)
        "invalid tx type %T, didn't implement interface protoTxProvider" [.goType tx.goType])) := by
  unfold AnteHandle.afterValidateBasic
  simp only [hp]

/-- With the shape invariants holding, the result is decided by the message
loop and the two comparisons after it. -/
theorem afterValidateBasic_shapeOk (evm : EvmPackage) (vbd : EthValidateBasicDecorator)
    (ctx : Context) (tx : Tx) (simulate : Bool) (next : AnteHandler) (p : ProtoTx)
    (hp : tx.protoTxProvider = some p) (hs : ShapeOk p) :
    AnteHandle.afterValidateBasic evm vbd ctx tx simulate next =
      match msgLoop evm (vbd.evmKeeper.BaseFeeMicronibiPerGas ctx) p.GetMsgs [] 0 with
      | .panic message => .panic message
      | .error err => .value (ctx, some err)
      | .ok (txFee, txGasLimit) =>
        match Coins.IsEqual p.AuthInfo.Fee.Amount txFee with
        | .panic message => .panic message
        | .value isEqual =>
          if !isEqual then
            .value (ctx, some (Wrapf (.ofSentinel .ErrInvalidRequest)
              "invalid AuthInfo Fee Amount (%s != %s)"
              [.coins p.AuthInfo.Fee.Amount, .coins txFee]))
          else if p.AuthInfo.Fee.GasLimit ≠ txGasLimit then
            .value (ctx, some (Wrapf (.ofSentinel .ErrInvalidRequest)
              "invalid AuthInfo Fee GasLimit (%d != %d)"
              [.uint p.AuthInfo.Fee.GasLimit, .uint txGasLimit]))
          else next ctx tx simulate := by
  obtain ⟨h1, h2, h3, h4, h5, h6, h7, h8⟩ := hs
  unfold AnteHandle.afterValidateBasic
  simp only [hp, h1, h2, h3, h4, h5, h6, h7, h8, List.length_nil, ne_eq, not_true_eq_false,
    or_self, gt_iff_lt, lt_self_iff_false, if_false]

/-- A violated shape invariant is answered with `ErrInvalidRequest` under a
description that depends on neither the messages nor any collaborator. -/
theorem afterValidateBasic_shapeBad (p : ProtoTx) (hs : ¬ ShapeOk p) :
    ∃ description, ∀ (evm : EvmPackage) (vbd : EthValidateBasicDecorator) (ctx : Context)
      (tx : Tx) (simulate : Bool) (next : AnteHandler) (msgs : List Msg),
      tx.protoTxProvider = some (p.withMsgs msgs) →
      AnteHandle.afterValidateBasic evm vbd ctx tx simulate next =
        .value (ctx, some (Wrap (.ofSentinel .ErrInvalidRequest) description)) := by
  by_cases h1 : p.Body.Memo ≠ "" ∨ p.Body.TimeoutHeight ≠ 0 ∨
      p.Body.NonCriticalExtensionOptions.length > 0
  · refine ⟨"for eth tx body Memo TimeoutHeight NonCriticalExtensionOptions should be empty",
      fun evm vbd ctx tx simulate next msgs hp => ?_⟩
    unfold AnteHandle.afterValidateBasic
    simp only [hp, ProtoTx.withMsgs, if_pos h1]
  by_cases h2 : p.Body.ExtensionOptions.length ≠ 1
  · refine ⟨"for eth tx length of ExtensionOptions should be 1",
      fun evm vbd ctx tx simulate next msgs hp => ?_⟩
    unfold AnteHandle.afterValidateBasic
    simp only [hp, ProtoTx.withMsgs, if_neg h1, if_pos h2]
  by_cases h3 : p.AuthInfo.SignerInfos.length > 0
  · refine ⟨"for eth tx AuthInfo SignerInfos should be empty",
      fun evm vbd ctx tx simulate next msgs hp => ?_⟩
    unfold AnteHandle.afterValidateBasic
    simp only [hp, ProtoTx.withMsgs, if_neg h1, if_neg h2, if_pos h3]
  by_cases h4 : p.AuthInfo.Fee.Payer ≠ "" ∨ p.AuthInfo.Fee.Granter ≠ ""
  · refine ⟨"for eth tx AuthInfo Fee payer and granter should be empty",
      fun evm vbd ctx tx simulate next msgs hp => ?_⟩
    unfold AnteHandle.afterValidateBasic
    simp only [hp, ProtoTx.withMsgs, if_neg h1, if_neg h2, if_neg h3, if_pos h4]
  by_cases h5 : p.Signatures.length > 0
  · refine ⟨"for eth tx Signatures should be empty",
      fun evm vbd ctx tx simulate next msgs hp => ?_⟩
    unfold AnteHandle.afterValidateBasic
    simp only [hp, ProtoTx.withMsgs, if_neg h1, if_neg h2, if_neg h3, if_neg h4, if_pos h5]
  exfalso
  apply hs
  simp only [not_or, ne_eq, not_not, gt_iff_lt, not_lt, Nat.le_zero, List.length_eq_zero] at h1 h2 h3 h4 h5
  exact ⟨h1.1, h1.2.1, h1.2.2, h2, h3, h4.1, h4.2, h5⟩

/-- The envelope's own validation either passes the decorator's first check or
fails with an error other than the no-signatures sentinel. -/
theorem basicOk_or_bad (tx : Tx) :
    BasicOk tx ∨ ∃ err, tx.ValidateBasic = some err ∧ errorsIs err .ErrNoSignatures = false := by
  cases hvb : tx.ValidateBasic with
  | none =>
    left
    intro e h
    rw [hvb] at h
    cases h
  | some err =>
    cases his : errorsIs err .ErrNoSignatures with
    | false => exact Or.inr ⟨err, rfl, his⟩
    | true =>
      left
      intro e h
      rw [hvb] at h
      cases h
      exact his

/-- Past the structural checks, with every message passing its checks and the
fees totalling below `2 ^ 256`, the decorator compares the declared fee with the
fee total and the declared gas limit with the gas total reduced modulo
`2 ^ 64`. -/
theorem AnteHandle_reconcile (evm : EvmPackage) (vbd : EthValidateBasicDecorator) (ctx : Context)
    (tx : Tx) (simulate : Bool) (next : AnteHandler) (p : ProtoTx)
    (hre : ctx.IsReCheckTx = false) (hvb : BasicOk tx) (hp : tx.protoTxProvider = some p)
    (hs : ShapeOk p)
    (hmsgs : ∀ msg ∈ p.GetMsgs,
      PassesMsgChecks evm (vbd.evmKeeper.BaseFeeMicronibiPerGas ctx) msg)
    (hfit : (p.GetMsgs.map (msgFee evm)).sum < 2 ^ 256) :
    AnteHandle evm vbd ctx tx simulate next =
      match Coins.IsEqual p.AuthInfo.Fee.Amount
          (coinsOf evm.EVMBankDenom ((p.GetMsgs.map (msgFee evm)).sum)) with
      | .panic message => .panic message
      | .value isEqual =>
        if !isEqual then
          .value (ctx, some (Wrapf (.ofSentinel .ErrInvalidRequest)
            "invalid AuthInfo Fee Amount (%s != %s)"
            [.coins p.AuthInfo.Fee.Amount,
             .coins (coinsOf evm.EVMBankDenom ((p.GetMsgs.map (msgFee evm)).sum))]))
        else if p.AuthInfo.Fee.GasLimit ≠ (p.GetMsgs.map msgGas).sum % 2 ^ 64 then
          .value (ctx, some (Wrapf (.ofSentinel .ErrInvalidRequest)
            "invalid AuthInfo Fee GasLimit (%d != %d)"
            [.uint p.AuthInfo.Fee.GasLimit, .uint ((p.GetMsgs.map msgGas).sum % 2 ^ 64)]))
        else next ctx tx simulate := by
  rw [AnteHandle_basicOk evm vbd ctx tx simulate next hre hvb,
    afterValidateBasic_shapeOk evm vbd ctx tx simulate next p hp hs]
  have hloop := msgLoop_ok evm (vbd.evmKeeper.BaseFeeMicronibiPerGas ctx) p.GetMsgs hmsgs 0 0
    (le_refl 0) (by omega) (by positivity)
  have hnil : coinsOf evm.EVMBankDenom 0 = [] := rfl
  rw [hnil, zero_add, Nat.zero_add] at hloop
  rw [hloop]

/-- On a first check the decorator ends as its verdict does: in the verdict's
rejection or panic, and in the continuation's result when the verdict is a
return without error. -/
theorem AnteHandle_eq (evm : EvmPackage) (vbd : EthValidateBasicDecorator) (ctx : Context)
    (tx : Tx) (simulate : Bool) (next : AnteHandler) (hre : ctx.IsReCheckTx = false) :
    AnteHandle evm vbd ctx tx simulate next =
      match verdict evm vbd ctx tx with
      | .panic message => .panic message
      | .value (_, some err) => .value (ctx, some err)
      | .value (_, none) => next ctx tx simulate := by
  have key : AnteHandle.afterValidateBasic evm vbd ctx tx simulate next =
        match AnteHandle.afterValidateBasic evm vbd ctx tx false
            (fun c _ _ => .value (c, none)) with
        | .panic message => .panic message
        | .value (_, some err) => .value (ctx, some err)
        | .value (_, none) => next ctx tx simulate := by
    cases hp : tx.protoTxProvider with
    | none => simp only [afterValidateBasic_noProto _ _ _ _ _ _ hp]
    | some p =>
      by_cases hs : ShapeOk p
      · simp only [afterValidateBasic_shapeOk _ _ _ _ _ _ p hp hs]
        rcases msgLoop evm (vbd.evmKeeper.BaseFeeMicronibiPerGas ctx) p.GetMsgs [] 0 with
          ⟨txFee, txGasLimit⟩ | err | message
        · dsimp only
          rcases Coins.IsEqual p.AuthInfo.Fee.Amount txFee with isEqual | message
          · dsimp only
            by_cases h6 : (!isEqual) = true
            · simp only [if_pos h6]
            simp only [if_neg h6]
            by_cases h7 : p.AuthInfo.Fee.GasLimit ≠ txGasLimit
            · simp only [if_pos h7]
            simp only [if_neg h7]
          · rfl
        · rfl
        · rfl
      · obtain ⟨description, hd⟩ := afterValidateBasic_shapeBad p hs
        simp only [hd evm vbd ctx tx _ _ p.Body.Messages hp]
  unfold verdict
  rcases basicOk_or_bad tx with hok | ⟨err, hvb, his⟩
  · rw [AnteHandle_basicOk _ _ _ _ _ _ hre hok, AnteHandle_basicOk _ _ _ _ _ _ hre hok]
    exact key
  · simp only [AnteHandle_basicBad _ _ _ _ _ _ hre err hvb his]

/-- On a first check the verdict returns the input context. -/
theorem verdict_ctx (evm : EvmPackage) (vbd : EthValidateBasicDecorator) (ctx : Context)
    (tx : Tx) (hre : ctx.IsReCheckTx = false) (c : Context) (e : Option SdkError)
    (h : verdict evm vbd ctx tx = .value (c, e)) : c = ctx := by
  have h1 := AnteHandle_eq evm vbd ctx tx false (fun c _ _ => .value (c, none)) hre
  have h2 : AnteHandle evm vbd ctx tx false (fun c _ _ => .value (c, none)) = .value (c, e) := h
  rw [h2, h] at h1
  cases e with
  | none =>
    simp only at h1
    injection h1 with h1
    injection h1
  | some err =>
    simp only at h1
    injection h1 with h1
    injection h1

/-- On a first check, acceptance is a verdict without error. -/
theorem accepts_iff (evm : EvmPackage) (vbd : EthValidateBasicDecorator) (ctx : Context)
    (tx : Tx) (simulate : Bool) (hre : ctx.IsReCheckTx = false) :
    Accepts evm vbd ctx tx simulate ↔ verdict evm vbd ctx tx = .value (ctx, none) := by
  constructor
  · intro h
    have h1 := h (fun c _ _ => .value (c, none))
    have h2 := h (fun _ _ _ => .panic "")
    rw [AnteHandle_eq _ _ _ _ _ _ hre] at h1 h2
    cases hv : verdict evm vbd ctx tx with
    | panic message =>
      rw [hv] at h1
      simp at h1
    | value r =>
      obtain ⟨c, e⟩ := r
      have hc := verdict_ctx evm vbd ctx tx hre c e hv
      subst hc
      cases e with
      | none => rfl
      | some err =>
        rw [hv] at h2
        simp at h2
  · intro h next
    rw [AnteHandle_eq _ _ _ _ _ _ hre, h]

/-- On a first check, rejection with an error is that error being the verdict. -/
theorem rejectsWith_iff (evm : EvmPackage) (vbd : EthValidateBasicDecorator) (ctx : Context)
    (tx : Tx) (simulate : Bool) (err : SdkError) (hre : ctx.IsReCheckTx = false) :
    RejectsWith evm vbd ctx tx simulate err ↔
      verdict evm vbd ctx tx = .value (ctx, some err) := by
  constructor
  · intro h
    have h1 := h (fun c _ _ => .value (c, none))
    have h2 := h (fun _ _ _ => .panic "")
    rw [AnteHandle_eq _ _ _ _ _ _ hre] at h1 h2
    cases hv : verdict evm vbd ctx tx with
    | panic message =>
      rw [hv] at h1
      simp at h1
    | value r =>
      obtain ⟨c, e⟩ := r
      have hc := verdict_ctx evm vbd ctx tx hre c e hv
      subst hc
      cases e with
      | none =>
        rw [hv] at h2
        simp at h2
      | some e =>
        rw [hv] at h1
        simp at h1
        rw [h1]
  · intro h next
    rw [AnteHandle_eq _ _ _ _ _ _ hre, h]

/-- On a first check of an envelope exposing its raw protocol representation,
acceptance is the conjunction of all the decorator's checks. -/
theorem accepts_iff_checks (evm : EvmPackage) (vbd : EthValidateBasicDecorator) (ctx : Context)
    (tx : Tx) (simulate : Bool) (p : ProtoTx)
    (hre : ctx.IsReCheckTx = false) (hp : tx.protoTxProvider = some p) :
    Accepts evm vbd ctx tx simulate ↔
      BasicOk tx ∧ ShapeOk p ∧
      (∀ msg ∈ p.GetMsgs, PassesMsgChecks evm (vbd.evmKeeper.BaseFeeMicronibiPerGas ctx) msg) ∧
      p.AuthInfo.Fee.Amount = coinsOf evm.EVMBankDenom ((p.GetMsgs.map (msgFee evm)).sum) ∧
      p.AuthInfo.Fee.GasLimit = (p.GetMsgs.map msgGas).sum % 2 ^ 64 := by
  have hnil : coinsOf evm.EVMBankDenom 0 = [] := rfl
  constructor
  · intro hacc
    have hpanic := hacc (fun _ _ _ => .panic "")
    have hvalue := hacc (fun c _ _ => .value (c, none))
    rcases basicOk_or_bad tx with hok | ⟨err, hvb, his⟩
    · by_cases hs : ShapeOk p
      · cases hl : msgLoop evm (vbd.evmKeeper.BaseFeeMicronibiPerGas ctx) p.GetMsgs [] 0 with
        | error e =>
          rw [AnteHandle_basicOk _ _ _ _ _ _ hre hok,
            afterValidateBasic_shapeOk _ _ _ _ _ _ p hp hs, hl] at hpanic
          simp at hpanic
        | panic message =>
          rw [AnteHandle_basicOk _ _ _ _ _ _ hre hok,
            afterValidateBasic_shapeOk _ _ _ _ _ _ p hp hs, hl] at hvalue
          simp at hvalue
        | ok r =>
          rw [← hnil] at hl
          obtain ⟨hmsgs, hfit, _⟩ := msgLoop_ok_inv _ _ _ 0 0 r (le_refl 0) (by norm_num)
            (by norm_num) hl
          rw [zero_add] at hfit
          rw [AnteHandle_reconcile evm vbd ctx tx simulate _ p hre hok hp hs hmsgs hfit]
            at hpanic hvalue
          cases hq : Coins.IsEqual p.AuthInfo.Fee.Amount
              (coinsOf evm.EVMBankDenom ((p.GetMsgs.map (msgFee evm)).sum)) with
          | panic message =>
            rw [hq] at hvalue
            simp at hvalue
          | value isEqual =>
            rw [hq] at hpanic
            cases isEqual with
            | false => simp at hpanic
            | true =>
              by_cases hgas : p.AuthInfo.Fee.GasLimit ≠ (p.GetMsgs.map msgGas).sum % 2 ^ 64
              · simp only [Bool.not_true, Bool.false_eq_true, if_false, if_pos hgas] at hpanic
                cases hpanic
              · exact ⟨hok, hs, hmsgs, (isEqual_coinsOf _ _ _).mp hq, not_not.mp hgas⟩
      · obtain ⟨description, hd⟩ := afterValidateBasic_shapeBad p hs
        rw [AnteHandle_basicOk _ _ _ _ _ _ hre hok,
          hd evm vbd ctx tx simulate _ p.Body.Messages hp] at hpanic
        simp at hpanic
    · rw [AnteHandle_basicBad _ _ _ _ _ _ hre err hvb his] at hpanic
      simp at hpanic
  · rintro ⟨hok, hs, hmsgs, hfee, hgas⟩ next
    have hfit := coinsOf_fits p.AuthInfo.Fee _ _ hfee
    rw [AnteHandle_reconcile evm vbd ctx tx simulate next p hre hok hp hs hmsgs hfit,
      (isEqual_coinsOf _ _ _).mpr hfee]
    simp only [Bool.not_true, Bool.false_eq_true, if_false]
    rw [if_neg (not_not.mpr hgas)]

/-- On a first check, a panic is that panic being the verdict. -/
theorem panicsWith_iff (evm : EvmPackage) (vbd : EthValidateBasicDecorator) (ctx : Context)
    (tx : Tx) (simulate : Bool) (message : String) (hre : ctx.IsReCheckTx = false) :
    PanicsWith evm vbd ctx tx simulate message ↔ verdict evm vbd ctx tx = .panic message := by
  constructor
  · intro h
    have h1 := h (fun c _ _ => .value (c, none))
    rw [AnteHandle_eq _ _ _ _ _ _ hre] at h1
    cases hv : verdict evm vbd ctx tx with
    | panic m =>
      rw [hv] at h1
      simp at h1
      rw [h1]
    | value r =>
      obtain ⟨c, e⟩ := r
      rw [hv] at h1
      cases e <;> simp at h1
  · intro h next
    rw [AnteHandle_eq _ _ _ _ _ _ hre, h]

/-! ## The concrete inputs pass the checks they are meant to pass -/

/-- The no-signatures outcome is tolerated. -/
theorem basicOk_noSignatures (p : ProtoTx) : BasicOk (ethTx (some errNoSignatures) p) := by
  intro err h
  cases h
  rfl

/-- A `nil` outcome passes. -/
theorem basicOk_nil (p : ProtoTx) : BasicOk (ethTx none p) := by
  intro err h
  cases h

/-- A legacy message with empty `From` passes its checks under the demo decoder. -/
theorem passes_legacyMsg (baseFee : Option Int) (gasPrice gas : Nat) :
    PassesMsgChecks demoEvm baseFee (legacyMsg "" gasPrice gas) :=
  ⟨_, _, rfl, rfl, rfl, fun h => absurd h.2 (by simp [TxData.TxType, DynamicFeeTxType, LegacyTxType])⟩

/-- The fees of scenario A's message sequence total 21000. -/
theorem sum_msgFee_scenarioA :
    (([legacyMsg "" 1000000000000 21000] : List Msg).map (msgFee demoEvm)).sum = 21000 := by
  decide

/-! ## The contract -/

/-- C1. Recheck bypass: when the context's recheck flag is set, `AnteHandle`
returns exactly the continuation's result, whatever the envelope, the
continuation and the simulate flag. -/
theorem recheck_forwards (evm : EvmPackage) (vbd : EthValidateBasicDecorator) (ctx : Context)
    (tx : Tx) (simulate : Bool) (next : AnteHandler) (hre : ctx.IsReCheckTx = true) :
    AnteHandle evm vbd ctx tx simulate next = next ctx tx simulate := by
  unfold AnteHandle
  rw [if_pos hre]

/-- Scenario E: the envelope with memo `x`, rejected on a first check, is
forwarded on a recheck. -/
theorem recheck_forwards_witness :
    recheckCtx.IsReCheckTx = true ∧
    AnteHandle demoEvm ⟨keeperAbsent⟩ recheckCtx (ethTx (some errInvalidAddress) scenarioC) false
      demoNext = demoNext recheckCtx (ethTx (some errInvalidAddress) scenarioC) false :=
  ⟨rfl, recheck_forwards demoEvm ⟨keeperAbsent⟩ recheckCtx (ethTx (some errInvalidAddress) scenarioC)
    false demoNext rfl⟩

/-- C2 as stated fails: two messages of gas `2 ^ 63` each pass every check, the
declared gas limit `0` differs from their sum `2 ^ 64`, and the envelope is
accepted. -/
theorem gas_sum_exact_counterexample :
    checkCtx.IsReCheckTx = false ∧
    BasicOk (ethTx (some errNoSignatures) overflowEnvelope) ∧
    ShapeOk overflowEnvelope ∧
    (∀ msg ∈ overflowEnvelope.GetMsgs,
      PassesMsgChecks demoEvm none msg ∧ msgGas msg < 2 ^ 64) ∧
    overflowEnvelope.AuthInfo.Fee.GasLimit < 2 ^ 64 ∧
    Accepts demoEvm ⟨keeperAbsent⟩ checkCtx (ethTx (some errNoSignatures) overflowEnvelope) false ∧
    overflowEnvelope.AuthInfo.Fee.GasLimit ≠ (overflowEnvelope.GetMsgs.map msgGas).sum := by
  have hb := basicOk_noSignatures overflowEnvelope
  have hs : ShapeOk overflowEnvelope := ⟨rfl, rfl, rfl, rfl, rfl, rfl, rfl, rfl⟩
  have hm : ∀ msg ∈ overflowEnvelope.GetMsgs,
      PassesMsgChecks demoEvm none msg ∧ msgGas msg < 2 ^ 64 := by
    intro msg hmsg
    simp only [overflowEnvelope, envelope, ProtoTx.GetMsgs, List.mem_cons, List.mem_singleton,
      List.mem_nil_iff, or_false, or_self] at hmsg
    subst hmsg
    exact ⟨passes_legacyMsg none _ _, by decide⟩
  refine ⟨rfl, hb, hs, hm, by decide, ?_, by decide⟩
  exact (accepts_iff_checks demoEvm ⟨keeperAbsent⟩ checkCtx _ false overflowEnvelope rfl rfl).mpr
    ⟨hb, hs, fun msg h => (hm msg h).1, by decide, by decide⟩

/-- C2, amended. Past the structural checks, with every message passing its
checks, `AnteHandle` accepts only if the declared gas limit equals the sum of
the messages' gas limits modulo `2 ^ 64`, which is the exact sum whenever that
sum is below `2 ^ 64`; and when the declared fee amount matches while the
declared gas limit differs from the sum modulo `2 ^ 64`, it rejects with the
gas-limit mismatch under `ErrInvalidRequest`. -/
theorem gas_limit_reconciled_mod_uint64 (evm : EvmPackage) (vbd : EthValidateBasicDecorator)
    (ctx : Context) (tx : Tx) (simulate : Bool) (p : ProtoTx)
    (hre : ctx.IsReCheckTx = false) (hvb : BasicOk tx) (hp : tx.protoTxProvider = some p)
    (hs : ShapeOk p)
    (hmsgs : ∀ msg ∈ p.GetMsgs,
      PassesMsgChecks evm (vbd.evmKeeper.BaseFeeMicronibiPerGas ctx) msg) :
    (Accepts evm vbd ctx tx simulate →
      p.AuthInfo.Fee.GasLimit = (p.GetMsgs.map msgGas).sum % 2 ^ 64) ∧
    (Accepts evm vbd ctx tx simulate → (p.GetMsgs.map msgGas).sum < 2 ^ 64 →
      p.AuthInfo.Fee.GasLimit = (p.GetMsgs.map msgGas).sum) ∧
    (p.AuthInfo.Fee.Amount = coinsOf evm.EVMBankDenom ((p.GetMsgs.map (msgFee evm)).sum) →
      p.AuthInfo.Fee.GasLimit ≠ (p.GetMsgs.map msgGas).sum % 2 ^ 64 →
      RejectsWith evm vbd ctx tx simulate
        (Wrapf (.ofSentinel .ErrInvalidRequest) "invalid AuthInfo Fee GasLimit (%d != %d)"
          [.uint p.AuthInfo.Fee.GasLimit, .uint ((p.GetMsgs.map msgGas).sum % 2 ^ 64)])) := by
  have hmod : Accepts evm vbd ctx tx simulate →
      p.AuthInfo.Fee.GasLimit = (p.GetMsgs.map msgGas).sum % 2 ^ 64 :=
    fun hacc => ((accepts_iff_checks evm vbd ctx tx simulate p hre hp).mp hacc).2.2.2.2
  refine ⟨hmod, ?_, ?_⟩
  · intro hacc hlt
    rw [hmod hacc, Nat.mod_eq_of_lt hlt]
  · intro hfee hgas next
    have hfit := coinsOf_fits p.AuthInfo.Fee _ _ hfee
    rw [AnteHandle_reconcile evm vbd ctx tx simulate next p hre hvb hp hs hmsgs hfit,
      (isEqual_coinsOf _ _ _).mpr hfee]
    simp only [Bool.not_true, Bool.false_eq_true, if_false]
    rw [if_pos hgas]

/-- Scenario A with the declared gas limit lowered to 20000: the fee amount
matches and the gas-limit mismatch is reported. -/
theorem gas_limit_reconciled_mod_uint64_witness :
    RejectsWith demoEvm ⟨keeperAbsent⟩ checkCtx (ethTx none scenarioAGas) false
      (Wrapf (.ofSentinel .ErrInvalidRequest) "invalid AuthInfo Fee GasLimit (%d != %d)"
        [.uint 20000, .uint 21000]) :=
  (gas_limit_reconciled_mod_uint64 demoEvm ⟨keeperAbsent⟩ checkCtx (ethTx none scenarioAGas) false
    scenarioAGas rfl (basicOk_nil _) rfl ⟨rfl, rfl, rfl, rfl, rfl, rfl, rfl, rfl⟩
    (fun msg hmsg => by
      simp only [scenarioAGas, envelope, ProtoTx.GetMsgs, List.mem_singleton] at hmsg
      subst hmsg
      exact passes_legacyMsg none _ _)).2.2
    (by decide) (by decide)

/-- C3 as stated fails: scenario A with the fee declared as `21000uatom` passes
every earlier check and its declared amount deviates from the computed
`21000unibi`, yet the call ends in a panic of the comparison, not in the
fee-amount mismatch. -/
theorem fee_deviation_counterexample :
    checkCtx.IsReCheckTx = false ∧
    BasicOk (ethTx (some errNoSignatures) scenarioAtom) ∧
    ShapeOk scenarioAtom ∧
    (∀ msg ∈ scenarioAtom.GetMsgs, PassesMsgChecks demoEvm none msg) ∧
    scenarioAtom.AuthInfo.Fee.Amount ≠
      coinsOf demoEvm.EVMBankDenom ((scenarioAtom.GetMsgs.map (msgFee demoEvm)).sum) ∧
    AnteHandle demoEvm ⟨keeperAbsent⟩ checkCtx (ethTx (some errNoSignatures) scenarioAtom) false
      demoNext = .panic "invalid coin denominations; uatom, unibi" := by
  have hm : ∀ msg ∈ scenarioAtom.GetMsgs, PassesMsgChecks demoEvm none msg := by
    intro msg hmsg
    simp only [scenarioAtom, envelope, ProtoTx.GetMsgs, List.mem_singleton] at hmsg
    subst hmsg
    exact passes_legacyMsg none _ _
  refine ⟨rfl, basicOk_noSignatures _, ⟨rfl, rfl, rfl, rfl, rfl, rfl, rfl, rfl⟩, hm, by decide, ?_⟩
  rw [AnteHandle_reconcile demoEvm ⟨keeperAbsent⟩ checkCtx _ false demoNext scenarioAtom rfl
    (basicOk_noSignatures _) rfl ⟨rfl, rfl, rfl, rfl, rfl, rfl, rfl, rfl⟩ hm
    (by
      have h : (scenarioAtom.GetMsgs.map (msgFee demoEvm)).sum = 21000 := sum_msgFee_scenarioA
      rw [h]
      norm_num)]
  rfl

/-- C3, amended. Past the structural checks, with every message passing its
checks, `AnteHandle` accepts only if the declared fee amount is the sum of the
messages' native fees in the EVM bank denomination (the single coin of that
denomination and that amount, no coin when the sum is zero).  With that sum
below `2 ^ 256`, a declared amount that deviates from it is rejected with the
fee-amount mismatch under `ErrInvalidRequest`, carrying the declared and the
computed value, when it has another number of coins than the sum or coins of
the EVM bank denomination only; a declared single coin of another denomination
against a non-zero sum makes the comparison panic. -/
theorem fee_amount_reconciled (evm : EvmPackage) (vbd : EthValidateBasicDecorator)
    (ctx : Context) (tx : Tx) (simulate : Bool) (p : ProtoTx)
    (hre : ctx.IsReCheckTx = false) (hvb : BasicOk tx) (hp : tx.protoTxProvider = some p)
    (hs : ShapeOk p)
    (hmsgs : ∀ msg ∈ p.GetMsgs,
      PassesMsgChecks evm (vbd.evmKeeper.BaseFeeMicronibiPerGas ctx) msg) :
    (Accepts evm vbd ctx tx simulate →
      p.AuthInfo.Fee.Amount = coinsOf evm.EVMBankDenom ((p.GetMsgs.map (msgFee evm)).sum) ∧
      Coins.AmountOf p.AuthInfo.Fee.Amount evm.EVMBankDenom = (p.GetMsgs.map (msgFee evm)).sum ∧
      ∀ c ∈ p.AuthInfo.Fee.Amount, c.Denom = evm.EVMBankDenom) ∧
    ((p.GetMsgs.map (msgFee evm)).sum < 2 ^ 256 →
      p.AuthInfo.Fee.Amount ≠ coinsOf evm.EVMBankDenom ((p.GetMsgs.map (msgFee evm)).sum) →
      (p.AuthInfo.Fee.Amount.length ≠
          (coinsOf evm.EVMBankDenom ((p.GetMsgs.map (msgFee evm)).sum)).length ∨
        ∀ c ∈ p.AuthInfo.Fee.Amount, c.Denom = evm.EVMBankDenom) →
      RejectsWith evm vbd ctx tx simulate
        (Wrapf (.ofSentinel .ErrInvalidRequest) "invalid AuthInfo Fee Amount (%s != %s)"
          [.coins p.AuthInfo.Fee.Amount,
           .coins (coinsOf evm.EVMBankDenom ((p.GetMsgs.map (msgFee evm)).sum))])) ∧
    ((p.GetMsgs.map (msgFee evm)).sum < 2 ^ 256 →
      ∀ c, p.AuthInfo.Fee.Amount = [c] → c.Denom ≠ evm.EVMBankDenom →
      (p.GetMsgs.map (msgFee evm)).sum ≠ 0 →
      PanicsWith evm vbd ctx tx simulate
        ("invalid coin denominations; " ++ c.Denom ++ ", " ++ evm.EVMBankDenom)) := by
  refine ⟨fun hacc => ?_, fun hfit hne hshape next => ?_, fun hfit c hc hd h0 next => ?_⟩
  · have hfee := ((accepts_iff_checks evm vbd ctx tx simulate p hre hp).mp hacc).2.2.2.1
    refine ⟨hfee, ?_, ?_⟩
    · rw [hfee, amountOf_coinsOf]
    · intro c hc
      rw [hfee] at hc
      exact denom_of_mem_coinsOf _ _ c hc
  · rw [AnteHandle_reconcile evm vbd ctx tx simulate next p hre hvb hp hs hmsgs hfit,
      isEqual_coinsOf_false _ _ _ hne hshape]
    rfl
  · rw [AnteHandle_reconcile evm vbd ctx tx simulate next p hre hvb hp hs hmsgs hfit, hc,
      isEqual_coinsOf_panic c _ _ hd h0]

/-- Scenario B: one legacy message with computed fee 21000 and declared amount
zero is rejected with the fee-amount mismatch. -/
theorem fee_amount_reconciled_witness :
    RejectsWith demoEvm ⟨keeperAbsent⟩ checkCtx (ethTx (some errNoSignatures) scenarioB) false
      (Wrapf (.ofSentinel .ErrInvalidRequest) "invalid AuthInfo Fee Amount (%s != %s)"
        [.coins [], .coins [⟨"unibi", 21000⟩]]) :=
  (fee_amount_reconciled demoEvm ⟨keeperAbsent⟩ checkCtx (ethTx (some errNoSignatures) scenarioB)
    false scenarioB rfl (basicOk_noSignatures _) rfl ⟨rfl, rfl, rfl, rfl, rfl, rfl, rfl, rfl⟩
    (fun msg hmsg => by
      simp only [scenarioB, envelope, ProtoTx.GetMsgs, List.mem_singleton] at hmsg
      subst hmsg
      exact passes_legacyMsg none _ _)).2.1
    (by
      have h : (scenarioB.GetMsgs.map (msgFee demoEvm)).sum = 21000 := sum_msgFee_scenarioA
      rw [h]
      norm_num)
    (by decide) (Or.inl (by decide))

/-- C4 as stated fails: with the keeper reporting base fee `2`, a dynamic-fee
message of fee cap `5 * 10 ^ 12`, tip cap `0` and gas 21000 passes its checks
and adds 21000 to the fee total, the fee at the constant `BASE_FEE_WEI`; the
fee at the keeper's value would be `0` (or 42000 with that value taken in
native units and converted to wei). -/
theorem effective_fee_oracle_counterexample :
    (keeperWith 2).BaseFeeMicronibiPerGas checkCtx = some 2 ∧
    PassesMsgChecks demoEvm ((keeperWith 2).BaseFeeMicronibiPerGas checkCtx)
      (dynamicMsg 5000000000000 0 21000) ∧
    demoEvm.UnpackTxData ⟨"/eth.evm.v1.DynamicFeeTx", [2, 5000000000000, 0, 21000]⟩ =
      .ok (.DynamicFeeTx 5000000000000 0 21000) ∧
    msgLoop demoEvm ((keeperWith 2).BaseFeeMicronibiPerGas checkCtx)
      [dynamicMsg 5000000000000 0 21000] [] 0 = .ok ([⟨"unibi", 21000⟩], 21000) ∧
    demoEvm.WeiToNative ((TxData.DynamicFeeTx 5000000000000 0 21000).EffectiveFeeWei 2) = 0 ∧
    demoEvm.WeiToNative ((TxData.DynamicFeeTx 5000000000000 0 21000).EffectiveFeeWei
      (2 * demoEvm.weiPerNative)) = 42000 := by
  refine ⟨rfl, ⟨_, _, rfl, rfl, rfl, fun h => ?_⟩, rfl, rfl, by decide, by decide⟩
  exact absurd h.1 (by decide)

/-- C4, amended. For a message that passes the per-message checks, the loop adds
`WeiToNative(EffectiveFeeWei(BASE_FEE_WEI))` to the running fee total, with
`BASE_FEE_WEI` the package constant whatever base fee the keeper reports: from a
running total `total` it ends, the message being the last, with the total
`total + fee` and the gas total increased modulo `2 ^ 64`, and goes on with
these totals when messages follow, provided `total + fee` is below `2 ^ 256`;
it panics when `total + fee` reaches `2 ^ 256`.  The fee added is the quotient,
truncated, by the fixed ratio of `gasPrice × gasLimit` for the legacy and
access-list variants and of `min(feeCap, BASE_FEE_WEI + tipCap) × gasLimit` for
the dynamic-fee variant. -/
theorem effective_fee_added (evm : EvmPackage) (baseFee : Option Int) (msgEthTx : MsgEthereumTx)
    (txData : TxData) (rest : List Msg) (total : Int) (gas : Nat)
    (hfrom : msgEthTx.From = "") (hdec : evm.UnpackTxData msgEthTx.Data = .ok txData)
    (hgate : ¬ (baseFee = none ∧ txData.TxType = DynamicFeeTxType))
    (ht : 0 ≤ total) (htf : total < 2 ^ 256) :
    (total + (evm.WeiToNative (txData.EffectiveFeeWei evm.BASE_FEE_WEI) : Nat) < 2 ^ 256 →
      msgLoop evm baseFee [.eth msgEthTx] (coinsOf evm.EVMBankDenom total) gas =
        .ok (coinsOf evm.EVMBankDenom
              (total + (evm.WeiToNative (txData.EffectiveFeeWei evm.BASE_FEE_WEI) : Nat)),
             (gas + msgEthTx.GetGas) % 2 ^ 64) ∧
      msgLoop evm baseFee (.eth msgEthTx :: rest) (coinsOf evm.EVMBankDenom total) gas =
        msgLoop evm baseFee rest
          (coinsOf evm.EVMBankDenom
            (total + (evm.WeiToNative (txData.EffectiveFeeWei evm.BASE_FEE_WEI) : Nat)))
          ((gas + msgEthTx.GetGas) % 2 ^ 64)) ∧
    (2 ^ 256 ≤ total + (evm.WeiToNative (txData.EffectiveFeeWei evm.BASE_FEE_WEI) : Nat) →
      ∃ message, msgLoop evm baseFee (.eth msgEthTx :: rest) (coinsOf evm.EVMBankDenom total) gas =
        .panic message) ∧
    (∀ gasPrice gasLimit,
      txData = .LegacyTx gasPrice gasLimit ∨ txData = .AccessListTx gasPrice gasLimit →
      total + (gasPrice * gasLimit / evm.weiPerNative : Nat) < 2 ^ 256 →
      msgLoop evm baseFee [.eth msgEthTx] (coinsOf evm.EVMBankDenom total) gas =
        .ok (coinsOf evm.EVMBankDenom (total + (gasPrice * gasLimit / evm.weiPerNative : Nat)),
             (gas + msgEthTx.GetGas) % 2 ^ 64)) ∧
    (∀ feeCap tipCap gasLimit, txData = .DynamicFeeTx feeCap tipCap gasLimit →
      total + (min feeCap (evm.BASE_FEE_WEI + tipCap) * gasLimit / evm.weiPerNative : Nat) <
        2 ^ 256 →
      msgLoop evm baseFee [.eth msgEthTx] (coinsOf evm.EVMBankDenom total) gas =
        .ok (coinsOf evm.EVMBankDenom
              (total +
                (min feeCap (evm.BASE_FEE_WEI + tipCap) * gasLimit / evm.weiPerNative : Nat)),
             (gas + msgEthTx.GetGas) % 2 ^ 64)) := by
  have hpass : PassesMsgChecks evm baseFee (.eth msgEthTx) :=
    ⟨msgEthTx, txData, rfl, hfrom, hdec, hgate⟩
  have hfee : msgFee evm (.eth msgEthTx) =
      (evm.WeiToNative (txData.EffectiveFeeWei evm.BASE_FEE_WEI) : Nat) := by
    simp only [msgFee, hdec]
  have hlast : total + (evm.WeiToNative (txData.EffectiveFeeWei evm.BASE_FEE_WEI) : Nat) <
        2 ^ 256 →
      msgLoop evm baseFee [.eth msgEthTx] (coinsOf evm.EVMBankDenom total) gas =
        .ok (coinsOf evm.EVMBankDenom
              (total + (evm.WeiToNative (txData.EffectiveFeeWei evm.BASE_FEE_WEI) : Nat)),
             (gas + msgEthTx.GetGas) % 2 ^ 64) := by
    intro hfit
    have h := msgLoop_step evm baseFee (.eth msgEthTx) [] total gas hpass ht
      (by rw [hfee]; exact hfit)
    rw [hfee] at h
    rw [h]
    rfl
  refine ⟨fun hfit => ⟨hlast hfit, ?_⟩, fun hover => ?_, ?_, ?_⟩
  · have h := msgLoop_step evm baseFee (.eth msgEthTx) rest total gas hpass ht
      (by rw [hfee]; exact hfit)
    rw [hfee] at h
    exact h
  · exact msgLoop_step_panic evm baseFee (.eth msgEthTx) rest total gas hpass ht htf
      (by rw [hfee]; exact hover)
  · intro gasPrice gasLimit h hfit
    rcases h with h | h <;> subst h <;> exact hlast hfit
  · intro feeCap tipCap gasLimit h hfit
    subst h
    exact hlast hfit

/-- The dynamic-fee message of the counterexample, base fee present: from a
running total of 100 and gas total 7 the loop ends with 21100 and 21007. -/
theorem effective_fee_added_witness :
    msgLoop demoEvm (some 2) [dynamicMsg 5000000000000 0 21000] (coinsOf "unibi" 100) 7 =
      .ok (coinsOf "unibi" 21100, 21007) :=
  ((effective_fee_added demoEvm (some 2)
    ⟨"", 21000, ⟨"/eth.evm.v1.DynamicFeeTx", [2, 5000000000000, 0, 21000]⟩⟩
    (.DynamicFeeTx 5000000000000 0 21000) [] 100 7 rfl rfl
    (fun h => absurd h.1 (by decide)) (by norm_num) (by norm_num)).1
    (by
      have h : demoEvm.WeiToNative
          ((TxData.DynamicFeeTx 5000000000000 0 21000).EffectiveFeeWei demoEvm.BASE_FEE_WEI) =
          21000 := by decide
      rw [h]
      norm_num)).1

/-- A sequence of messages that pass their checks makes the loop panic when their
fees, added to the running total, reach `2 ^ 256`. -/
theorem msgLoop_overflow (evm : EvmPackage) (baseFee : Option Int) (pre rest : List Msg)
    (h : ∀ msg ∈ pre, PassesMsgChecks evm baseFee msg) (total : Int) (gas : Nat)
    (ht : 0 ≤ total) (htf : total < 2 ^ 256)
    (hover : 2 ^ 256 ≤ total + (pre.map (msgFee evm)).sum) :
    ∃ message, msgLoop evm baseFee (pre ++ rest) (coinsOf evm.EVMBankDenom total) gas =
      .panic message := by
  induction pre generalizing total gas with
  | nil =>
    simp only [List.map_nil, List.sum_nil, add_zero] at hover
    omega
  | cons msg pre ih =>
    have hnn := msgFee_nonneg evm msg
    simp only [List.map_cons, List.sum_cons] at hover
    by_cases hfit : total + msgFee evm msg < 2 ^ 256
    · rw [List.cons_append, msgLoop_step evm baseFee msg _ total gas
        (h msg (List.mem_cons_self _ _)) ht hfit]
      exact ih (fun m hm => h m (List.mem_cons_of_mem _ hm)) _ _ (by omega) hfit (by omega)
    · rw [List.cons_append]
      exact msgLoop_step_panic evm baseFee msg _ total gas (h msg (List.mem_cons_self _ _)) ht htf
        (by omega)

/-- A sequence holding a message that fails a check splits at the first such
message. -/
theorem first_failure (evm : EvmPackage) (baseFee : Option Int) (msgs : List Msg)
    (h : ∃ msg ∈ msgs, ¬ PassesMsgChecks evm baseFee msg) :
    ∃ pre bad post, msgs = pre ++ bad :: post ∧
      (∀ msg ∈ pre, PassesMsgChecks evm baseFee msg) ∧ ¬ PassesMsgChecks evm baseFee bad := by
  induction msgs with
  | nil =>
    obtain ⟨msg, hmsg, _⟩ := h
    cases hmsg
  | cons msg₀ rest ih =>
    by_cases h₀ : PassesMsgChecks evm baseFee msg₀
    · have hrest : ∃ msg ∈ rest, ¬ PassesMsgChecks evm baseFee msg := by
        obtain ⟨msg, hmsg, hbad⟩ := h
        rcases List.mem_cons.mp hmsg with heq | hin
        · rw [heq] at hbad
          exact absurd h₀ hbad
        · exact ⟨msg, hin, hbad⟩
      obtain ⟨pre, bad, post, hsplit, hpre, hbad⟩ := ih hrest
      refine ⟨msg₀ :: pre, bad, post, by rw [hsplit]; rfl, ?_, hbad⟩
      intro m hm
      rcases List.mem_cons.mp hm with heq | hin
      · rw [heq]
        exact h₀
      · exact hpre m hin
    · exact ⟨[], msg₀, rest, rfl, fun m hm => absurd hm (List.not_mem_nil m), h₀⟩

/-- Past the structural checks, a first message failing a check after messages
that pass theirs, with fees totalling below `2 ^ 256`, ends the call as its own
turn of the loop ends. -/
theorem AnteHandle_first_failure (evm : EvmPackage) (vbd : EthValidateBasicDecorator)
    (ctx : Context) (tx : Tx) (simulate : Bool) (next : AnteHandler) (p : ProtoTx)
    (pre post : List Msg) (bad : Msg) (err : SdkError)
    (hre : ctx.IsReCheckTx = false) (hvb : BasicOk tx) (hp : tx.protoTxProvider = some p)
    (hs : ShapeOk p) (hsplit : p.GetMsgs = pre ++ bad :: post)
    (hpre : ∀ msg ∈ pre, PassesMsgChecks evm (vbd.evmKeeper.BaseFeeMicronibiPerGas ctx) msg)
    (hfit : (pre.map (msgFee evm)).sum < 2 ^ 256)
    (hbad : ∀ (txFee : Coins) (gas : Nat),
      msgLoop evm (vbd.evmKeeper.BaseFeeMicronibiPerGas ctx) (bad :: post) txFee gas =
        .error err) :
    AnteHandle evm vbd ctx tx simulate next = .value (ctx, some err) := by
  have hnil : coinsOf evm.EVMBankDenom 0 = [] := rfl
  rw [AnteHandle_basicOk _ _ _ _ _ _ hre hvb, afterValidateBasic_shapeOk _ _ _ _ _ _ p hp hs,
    hsplit, ← hnil,
    msgLoop_append evm _ pre (bad :: post) hpre 0 0 (le_refl 0) (by omega) (by norm_num), hbad]

/-- C5 as stated fails: with the base fee absent, the envelope of scenario D
with memo `x` holds a message decoding to the dynamic-fee variant and is
rejected with `ErrInvalidRequest`, not with `ErrTxTypeNotSupported`. -/
theorem dynamic_fee_gating_counterexample :
    checkCtx.IsReCheckTx = false ∧
    keeperAbsent.BaseFeeMicronibiPerGas checkCtx = none ∧
    scenarioDMemo.GetMsgs = [dynamicMsg 5000000000000 0 21000] ∧
    demoEvm.UnpackTxData ⟨"/eth.evm.v1.DynamicFeeTx", [2, 5000000000000, 0, 21000]⟩ =
      .ok (.DynamicFeeTx 5000000000000 0 21000) ∧
    RejectsWith demoEvm ⟨keeperAbsent⟩ checkCtx (ethTx (some errNoSignatures) scenarioDMemo) false
      (Wrap (.ofSentinel .ErrInvalidRequest)
        "for eth tx body Memo TimeoutHeight NonCriticalExtensionOptions should be empty") ∧
    errorsIs (Wrap (.ofSentinel .ErrInvalidRequest)
        "for eth tx body Memo TimeoutHeight NonCriticalExtensionOptions should be empty")
      .ErrTxTypeNotSupported = false :=
  ⟨rfl, rfl, rfl, rfl, fun _ => rfl, rfl⟩

/-- C5, amended. With the base fee absent, a first check of an envelope holding
a message that decodes to the dynamic-fee variant never accepts: it rejects or
panics, and the first failing check decides which.  A failure of the envelope's
own validation other than the no-signatures sentinel is returned wrapped; past
it, a violated shape invariant gives `ErrInvalidRequest`; past both, some
message fails a per-message check, and with `pre` the messages before the first
such message `bad`: when the fees of `pre` total below `2 ^ 256` the rejection is
`ErrUnknownRequest` for a `bad` that is no Ethereum message, `ErrInvalidRequest`
for a non-empty `From`, the decoder's error wrapped for a payload that does not
decode and `ErrTxTypeNotSupported` for a `bad` decoding to the dynamic-fee
variant; when those fees reach `2 ^ 256` the call panics. -/
theorem dynamic_fee_gated (evm : EvmPackage) (vbd : EthValidateBasicDecorator) (ctx : Context)
    (tx : Tx) (simulate : Bool) (p : ProtoTx) (m : MsgEthereumTx) (txData : TxData)
    (hre : ctx.IsReCheckTx = false) (hp : tx.protoTxProvider = some p)
    (hbf : vbd.evmKeeper.BaseFeeMicronibiPerGas ctx = none)
    (hmem : Msg.eth m ∈ p.GetMsgs)
    (hdec : evm.UnpackTxData m.Data = .ok txData)
    (hdyn : txData.TxType = DynamicFeeTxType) :
    ¬ Accepts evm vbd ctx tx simulate ∧
    ((∃ err, RejectsWith evm vbd ctx tx simulate err) ∨
      (∃ message, PanicsWith evm vbd ctx tx simulate message)) ∧
    (∀ err, tx.ValidateBasic = some err → errorsIs err .ErrNoSignatures = false →
      RejectsWith evm vbd ctx tx simulate (Wrap err "tx basic validation failed")) ∧
    (BasicOk tx → ¬ ShapeOk p →
      ∃ description, RejectsWith evm vbd ctx tx simulate
        (Wrap (.ofSentinel .ErrInvalidRequest) description)) ∧
    (∃ pre bad post, p.GetMsgs = pre ++ bad :: post ∧
      (∀ msg ∈ pre, PassesMsgChecks evm none msg) ∧ ¬ PassesMsgChecks evm none bad) ∧
    (BasicOk tx → ShapeOk p → ∀ (pre post : List Msg) (bad : Msg),
      p.GetMsgs = pre ++ bad :: post → (∀ msg ∈ pre, PassesMsgChecks evm none msg) →
      ((pre.map (msgFee evm)).sum < 2 ^ 256 →
        (∀ goType, bad = .other goType →
          RejectsWith evm vbd ctx tx simulate
            (Wrapf (.ofSentinel .ErrUnknownRequest) "invalid message type %T, expected %T"
              [.goType goType, .goType "*evm.MsgEthereumTx"])) ∧
        (∀ msgEthTx, bad = .eth msgEthTx → msgEthTx.From ≠ "" →
          RejectsWith evm vbd ctx tx simulate
            (Wrapf (.ofSentinel .ErrInvalidRequest) "invalid From %s, expect empty string"
              [.str msgEthTx.From])) ∧
        (∀ msgEthTx err, bad = .eth msgEthTx → msgEthTx.From = "" →
          evm.UnpackTxData msgEthTx.Data = .error err →
          RejectsWith evm vbd ctx tx simulate (Wrap err "failed to unpack MsgEthereumTx Data")) ∧
        (∀ msgEthTx data, bad = .eth msgEthTx → msgEthTx.From = "" →
          evm.UnpackTxData msgEthTx.Data = .ok data → data.TxType = DynamicFeeTxType →
          RejectsWith evm vbd ctx tx simulate
            (Wrap (.ofSentinel .ErrTxTypeNotSupported) "dynamic fee tx not supported"))) ∧
      (2 ^ 256 ≤ (pre.map (msgFee evm)).sum →
        ∃ message, PanicsWith evm vbd ctx tx simulate message)) := by
  have hnil : coinsOf evm.EVMBankDenom 0 = [] := rfl
  have hnot : ¬ PassesMsgChecks evm none (.eth m) := by
    rintro ⟨m', txData', heq, _, hdec', hgate⟩
    injection heq with heq
    subst heq
    rw [hdec] at hdec'
    injection hdec' with hdec'
    subst hdec'
    exact hgate ⟨rfl, hdyn⟩
  have hacc : ¬ Accepts evm vbd ctx tx simulate := by
    intro h
    have hall := ((accepts_iff_checks evm vbd ctx tx simulate p hre hp).mp h).2.2.1
    rw [hbf] at hall
    exact hnot (hall _ hmem)
  have hsplit := first_failure evm none p.GetMsgs ⟨_, hmem, hnot⟩
  refine ⟨hacc, ?_, ?_, ?_, hsplit, ?_⟩
  · cases hv : verdict evm vbd ctx tx with
    | panic message => exact Or.inr ⟨message, (panicsWith_iff _ _ _ _ _ _ hre).mpr hv⟩
    | value r =>
      obtain ⟨c, e⟩ := r
      have hc := verdict_ctx evm vbd ctx tx hre c e hv
      subst hc
      cases e with
      | none => exact absurd ((accepts_iff _ _ _ _ simulate hre).mpr hv) hacc
      | some err => exact Or.inl ⟨err, (rejectsWith_iff _ _ _ _ _ _ hre).mpr hv⟩
  · intro err hvb his next
    exact AnteHandle_basicBad _ _ _ _ _ next hre err hvb his
  · intro hok hs
    obtain ⟨description, hd⟩ := afterValidateBasic_shapeBad p hs
    refine ⟨description, fun next => ?_⟩
    rw [AnteHandle_basicOk _ _ _ _ _ _ hre hok]
    exact hd evm vbd ctx tx simulate next p.Body.Messages hp
  · intro hok hs pre post bad hsp hpre
    rw [← hbf] at hpre
    refine ⟨fun hfit => ⟨?_, ?_, ?_, ?_⟩, fun hover => ?_⟩
    · intro goType hb next
      subst hb
      exact AnteHandle_first_failure evm vbd ctx tx simulate next p pre post _ _ hre hok hp hs hsp
        hpre hfit (fun txFee gas => msgLoop_other evm _ goType post txFee gas)
    · intro msgEthTx hb hfrom next
      subst hb
      exact AnteHandle_first_failure evm vbd ctx tx simulate next p pre post _ _ hre hok hp hs hsp
        hpre hfit (fun txFee gas => msgLoop_from evm _ msgEthTx post txFee gas hfrom)
    · intro msgEthTx err hb hfrom hd next
      subst hb
      exact AnteHandle_first_failure evm vbd ctx tx simulate next p pre post _ _ hre hok hp hs hsp
        hpre hfit (fun txFee gas => msgLoop_unpack evm _ msgEthTx post txFee gas err hfrom hd)
    · intro msgEthTx data hb hfrom hd hty next
      subst hb
      exact AnteHandle_first_failure evm vbd ctx tx simulate next p pre post _ _ hre hok hp hs hsp
        hpre hfit (fun txFee gas => by
          rw [hbf]
          exact msgLoop_dynamic evm msgEthTx data post txFee gas hfrom hd hty)
    · obtain ⟨message, hm⟩ := msgLoop_overflow evm _ pre (bad :: post) hpre 0 0 (le_refl 0)
        (by norm_num) (by omega)
      refine ⟨message, fun next => ?_⟩
      rw [AnteHandle_basicOk _ _ _ _ _ _ hre hok, afterValidateBasic_shapeOk _ _ _ _ _ _ p hp hs,
        hsp, ← hnil, hm]

/-- Scenario D: one dynamic-fee message, base fee absent. -/
theorem dynamic_fee_gated_witness :
    RejectsWith demoEvm ⟨keeperAbsent⟩ checkCtx (ethTx (some errNoSignatures) scenarioD) false
      (Wrap (.ofSentinel .ErrTxTypeNotSupported) "dynamic fee tx not supported") :=
  ((((dynamic_fee_gated demoEvm ⟨keeperAbsent⟩ checkCtx (ethTx (some errNoSignatures) scenarioD)
    false scenarioD ⟨"", 21000, ⟨"/eth.evm.v1.DynamicFeeTx", [2, 5000000000000, 0, 21000]⟩⟩
    (.DynamicFeeTx 5000000000000 0 21000) rfl rfl rfl (List.mem_singleton.mpr rfl) rfl
    rfl).2.2.2.2.2 (basicOk_noSignatures _) ⟨rfl, rfl, rfl, rfl, rfl, rfl, rfl, rfl⟩ [] []
    (dynamicMsg 5000000000000 0 21000) rfl
    (fun msg h => absurd h (List.not_mem_nil msg))).1 (by norm_num)).2.2.2
    ⟨"", 21000, ⟨"/eth.evm.v1.DynamicFeeTx", [2, 5000000000000, 0, 21000]⟩⟩
    (.DynamicFeeTx 5000000000000 0 21000) rfl rfl rfl rfl)

/-- C6. On a first check of an envelope whose body has a non-empty memo, a
non-zero timeout height or non-empty non-critical extension options,
`AnteHandle` rejects with an error of kind `StructuralError`, whatever the other
fields of the envelope, the outcome of its own validation and its fee and gas
fields included: the shape error under `ErrInvalidRequest` when the envelope's
own validation succeeds or fails only with the no-signatures sentinel, and that
validation's failure, wrapped, otherwise. -/
theorem body_fields_rejected (evm : EvmPackage) (vbd : EthValidateBasicDecorator) (ctx : Context)
    (tx : Tx) (simulate : Bool) (p : ProtoTx)
    (hre : ctx.IsReCheckTx = false) (hp : tx.protoTxProvider = some p)
    (hbody : p.Body.Memo ≠ "" ∨ p.Body.TimeoutHeight ≠ 0 ∨
      p.Body.NonCriticalExtensionOptions ≠ []) :
    (∃ err, RejectsWith evm vbd ctx tx simulate err ∧ StructuralError err) ∧
    (BasicOk tx →
      RejectsWith evm vbd ctx tx simulate
        (Wrap (.ofSentinel .ErrInvalidRequest)
          "for eth tx body Memo TimeoutHeight NonCriticalExtensionOptions should be empty")) ∧
    (∀ err, tx.ValidateBasic = some err → errorsIs err .ErrNoSignatures = false →
      RejectsWith evm vbd ctx tx simulate (Wrap err "tx basic validation failed")) := by
  have hshape : BasicOk tx →
      RejectsWith evm vbd ctx tx simulate
        (Wrap (.ofSentinel .ErrInvalidRequest)
          "for eth tx body Memo TimeoutHeight NonCriticalExtensionOptions should be empty") := by
    intro hok next
    have hcond : p.Body.Memo ≠ "" ∨ p.Body.TimeoutHeight ≠ 0 ∨
        p.Body.NonCriticalExtensionOptions.length > 0 := by
      rcases hbody with h | h | h
      · exact Or.inl h
      · exact Or.inr (Or.inl h)
      · exact Or.inr (Or.inr (List.length_pos.mpr h))
    rw [AnteHandle_basicOk _ _ _ _ _ _ hre hok]
    unfold AnteHandle.afterValidateBasic
    simp only [hp, if_pos hcond]
  have hbasic : ∀ err, tx.ValidateBasic = some err → errorsIs err .ErrNoSignatures = false →
      RejectsWith evm vbd ctx tx simulate (Wrap err "tx basic validation failed") :=
    fun err hvb his next => AnteHandle_basicBad _ _ _ _ _ next hre err hvb his
  refine ⟨?_, hshape, hbasic⟩
  rcases basicOk_or_bad tx with hok | ⟨err, hvb, his⟩
  · exact ⟨_, hshape hok, Or.inr (Or.inl ⟨_, rfl⟩)⟩
  · exact ⟨_, hbasic err hvb his, Or.inl ⟨err, his, rfl⟩⟩

/-- Scenario C, scenario A with memo `x` and fee and gas fields correct, and the
same envelope under a failing validation of its own. -/
theorem body_fields_rejected_witness :
    RejectsWith demoEvm ⟨keeperAbsent⟩ checkCtx (ethTx (some errNoSignatures) scenarioC) false
      (Wrap (.ofSentinel .ErrInvalidRequest)
        "for eth tx body Memo TimeoutHeight NonCriticalExtensionOptions should be empty") ∧
    ∃ err, RejectsWith demoEvm ⟨keeperAbsent⟩ checkCtx (ethTx (some errInvalidAddress) scenarioC)
      false err ∧ StructuralError err :=
  ⟨(body_fields_rejected demoEvm ⟨keeperAbsent⟩ checkCtx (ethTx (some errNoSignatures) scenarioC)
      false scenarioC rfl rfl (Or.inl (by decide))).2.1 (basicOk_noSignatures _),
   (body_fields_rejected demoEvm ⟨keeperAbsent⟩ checkCtx (ethTx (some errInvalidAddress) scenarioC)
      false scenarioC rfl rfl (Or.inl (by decide))).1⟩

/-- C7. Envelope-shape invariants: on a first check of an envelope whose own
validation succeeds or fails only with the no-signatures sentinel and which
exposes its raw protocol representation, a non-empty memo, a non-zero timeout
height, non-empty non-critical extension options, a number of extension options
other than one, non-empty signer infos, a non-empty fee payer or granter, or
non-empty signatures lead to a rejection with `ErrInvalidRequest`, and to the
same rejection whatever the messages and their decoder. -/
theorem shape_invariants_rejected (evm : EvmPackage) (vbd : EthValidateBasicDecorator)
    (ctx : Context) (tx : Tx) (simulate : Bool) (p : ProtoTx)
    (hre : ctx.IsReCheckTx = false) (hvb : BasicOk tx) (hp : tx.protoTxProvider = some p)
    (hviol : p.Body.Memo ≠ "" ∨ p.Body.TimeoutHeight ≠ 0 ∨
      p.Body.NonCriticalExtensionOptions ≠ [] ∨ p.Body.ExtensionOptions.length ≠ 1 ∨
      p.AuthInfo.SignerInfos ≠ [] ∨ p.AuthInfo.Fee.Payer ≠ "" ∨ p.AuthInfo.Fee.Granter ≠ "" ∨
      p.Signatures ≠ []) :
    ∃ description,
      RejectsWith evm vbd ctx tx simulate (Wrap (.ofSentinel .ErrInvalidRequest) description) ∧
      ∀ (evm₁ : EvmPackage) (msgs : List Msg),
        RejectsWith evm₁ vbd ctx (tx.withProtoTx (p.withMsgs msgs)) simulate
          (Wrap (.ofSentinel .ErrInvalidRequest) description) := by
  have hs : ¬ ShapeOk p := by
    rintro ⟨h1, h2, h3, h4, h5, h6, h7, h8⟩
    rcases hviol with h | h | h | h | h | h | h | h
    · exact h h1
    · exact h h2
    · exact h h3
    · exact h h4
    · exact h h5
    · exact h h6
    · exact h h7
    · exact h h8
  obtain ⟨description, hd⟩ := afterValidateBasic_shapeBad p hs
  refine ⟨description, fun next => ?_, fun evm₁ msgs next => ?_⟩
  · rw [AnteHandle_basicOk _ _ _ _ _ _ hre hvb]
    exact hd evm vbd ctx tx simulate next p.Body.Messages hp
  · have hvb₁ : BasicOk (tx.withProtoTx (p.withMsgs msgs)) := hvb
    rw [AnteHandle_basicOk _ _ _ _ _ _ hre hvb₁]
    exact hd evm₁ vbd ctx _ simulate next msgs rfl

/-- Scenario A with one signature attached. -/
theorem shape_invariants_rejected_witness :
    ∃ description,
      RejectsWith demoEvm ⟨keeperAbsent⟩ checkCtx (ethTx none scenarioASigned) false
        (Wrap (.ofSentinel .ErrInvalidRequest) description) ∧
      ∀ (evm₁ : EvmPackage) (msgs : List Msg),
        RejectsWith evm₁ ⟨keeperAbsent⟩ checkCtx
          ((ethTx none scenarioASigned).withProtoTx (scenarioASigned.withMsgs msgs)) false
          (Wrap (.ofSentinel .ErrInvalidRequest) description) :=
  shape_invariants_rejected demoEvm ⟨keeperAbsent⟩ checkCtx (ethTx none scenarioASigned) false
    scenarioASigned rfl (basicOk_nil _) rfl
    (Or.inr (Or.inr (Or.inr (Or.inr (Or.inr (Or.inr (Or.inr (by decide))))))))

/-- The verdict does not depend on a tolerated outcome of the envelope's own
validation. -/
theorem verdict_tolerated (evm : EvmPackage) (vbd : EthValidateBasicDecorator) (ctx : Context)
    (tx : Tx) (err : SdkError) (hre : ctx.IsReCheckTx = false)
    (his : errorsIs err .ErrNoSignatures = true) :
    verdict evm vbd ctx (tx.withValidateBasic (some err)) =
      verdict evm vbd ctx (tx.withValidateBasic none) := by
  have h₁ : BasicOk (tx.withValidateBasic (some err)) := fun e h => by
    cases h
    exact his
  have h₀ : BasicOk (tx.withValidateBasic none) := fun e h => by cases h
  unfold verdict
  rw [AnteHandle_basicOk _ _ _ _ _ _ hre h₁, AnteHandle_basicOk _ _ _ _ _ _ hre h₀]
  rfl

/-- C8. No-signatures tolerance: on a first check of an envelope whose
`ValidateBasic` returns the no-signatures sentinel, the result of `AnteHandle`
is its result had `ValidateBasic` returned no error (the continuation being
handed the envelope itself): it is rejected with an error exactly when it is
rejected with that error then, and accepted exactly when it is accepted then;
and when `ValidateBasic` returns any other error, `AnteHandle` rejects with that
error wrapped, the continuation having no part in the result. -/
theorem no_signatures_tolerated (evm : EvmPackage) (vbd : EthValidateBasicDecorator)
    (ctx : Context) (tx : Tx) (simulate : Bool) (hre : ctx.IsReCheckTx = false) :
    (∀ err, errorsIs err .ErrNoSignatures = true →
      (∀ next : AnteHandler,
        AnteHandle evm vbd ctx (tx.withValidateBasic (some err)) simulate next =
          AnteHandle evm vbd ctx (tx.withValidateBasic none) simulate
            (fun c _ s => next c (tx.withValidateBasic (some err)) s)) ∧
      (∀ e, RejectsWith evm vbd ctx (tx.withValidateBasic (some err)) simulate e ↔
        RejectsWith evm vbd ctx (tx.withValidateBasic none) simulate e) ∧
      (Accepts evm vbd ctx (tx.withValidateBasic (some err)) simulate ↔
        Accepts evm vbd ctx (tx.withValidateBasic none) simulate)) ∧
    (∀ err, tx.ValidateBasic = some err → errorsIs err .ErrNoSignatures = false →
      RejectsWith evm vbd ctx tx simulate (Wrap err "tx basic validation failed")) := by
  constructor
  · intro err his
    have hv := verdict_tolerated evm vbd ctx tx err hre his
    refine ⟨fun next => ?_, ?_, ?_⟩
    · have h₁ : BasicOk (tx.withValidateBasic (some err)) := fun e h => by
        cases h
        exact his
      have h₀ : BasicOk (tx.withValidateBasic none) := fun e h => by cases h
      rw [AnteHandle_basicOk _ _ _ _ _ _ hre h₁, AnteHandle_basicOk _ _ _ _ _ _ hre h₀]
      rfl
    · intro e
      rw [rejectsWith_iff _ _ _ _ _ _ hre, rejectsWith_iff _ _ _ _ _ _ hre, hv]
    · rw [accepts_iff _ _ _ _ _ hre, accepts_iff _ _ _ _ _ hre, hv]
  · intro err hvb his next
    exact AnteHandle_basicBad _ _ _ _ _ next hre err hvb his

/-- Scenario A is accepted with the no-signatures outcome as it is with none,
and scenario C with an invalid-address outcome is rejected with that error
wrapped. -/
theorem no_signatures_tolerated_witness :
    (Accepts demoEvm ⟨keeperAbsent⟩ checkCtx ((ethTx none scenarioA).withValidateBasic
        (some errNoSignatures)) false ↔
      Accepts demoEvm ⟨keeperAbsent⟩ checkCtx ((ethTx none scenarioA).withValidateBasic none)
        false) ∧
    RejectsWith demoEvm ⟨keeperAbsent⟩ checkCtx (ethTx (some errInvalidAddress) scenarioC) true
      (Wrap errInvalidAddress "tx basic validation failed") :=
  ⟨((no_signatures_tolerated demoEvm ⟨keeperAbsent⟩ checkCtx (ethTx none scenarioA) false rfl).1
      errNoSignatures rfl).2.2,
   (no_signatures_tolerated demoEvm ⟨keeperAbsent⟩ checkCtx (ethTx (some errInvalidAddress) scenarioC)
      true rfl).2 errInvalidAddress rfl rfl⟩

/-- C9 as stated fails: on scenario A with the fee declared as `21000uatom` the
call ends in a panic whatever the continuation, so it neither rejects with an
error nor returns the continuation's result. -/
theorem reject_or_forward_counterexample :
    PanicsWith demoEvm ⟨keeperAbsent⟩ checkCtx scenarioAtomTx false
      "invalid coin denominations; uatom, unibi" ∧
    ¬ ((∃ err, ∀ next : AnteHandler,
          AnteHandle demoEvm ⟨keeperAbsent⟩ checkCtx scenarioAtomTx false next =
            .value (checkCtx, some err)) ∨
       (∀ next : AnteHandler,
          AnteHandle demoEvm ⟨keeperAbsent⟩ checkCtx scenarioAtomTx false next =
            next checkCtx scenarioAtomTx false)) := by
  have hpanic : PanicsWith demoEvm ⟨keeperAbsent⟩ checkCtx scenarioAtomTx false
      "invalid coin denominations; uatom, unibi" := by
    intro next
    have hm : ∀ msg ∈ scenarioAtom.GetMsgs, PassesMsgChecks demoEvm none msg := by
      intro msg hmsg
      simp only [scenarioAtom, envelope, ProtoTx.GetMsgs, List.mem_singleton] at hmsg
      subst hmsg
      exact passes_legacyMsg none _ _
    rw [AnteHandle_reconcile demoEvm ⟨keeperAbsent⟩ checkCtx scenarioAtomTx false next scenarioAtom
      rfl (basicOk_noSignatures _) rfl ⟨rfl, rfl, rfl, rfl, rfl, rfl, rfl, rfl⟩ hm
      (by
        have h : (scenarioAtom.GetMsgs.map (msgFee demoEvm)).sum = 21000 := sum_msgFee_scenarioA
        rw [h]
        norm_num)]
    rfl
  refine ⟨hpanic, ?_⟩
  rintro (⟨err, h⟩ | h)
  · have h1 := h demoNext
    rw [hpanic demoNext] at h1
    cases h1
  · have h1 := h demoNext
    rw [hpanic demoNext] at h1
    cases h1

/-- C9, amended. For every input, `AnteHandle` either rejects, returning the
input context and an error whatever the continuation, or returns exactly the
continuation's result on the context, envelope and flag it was given, or ends
in a panic whatever the continuation; it panics only on a first check, past the
envelope's own validation and the shape invariants, that is in the message
loop or in the comparison of the fee. -/
theorem rejects_forwards_or_panics (evm : EvmPackage) (vbd : EthValidateBasicDecorator)
    (ctx : Context) (tx : Tx) (simulate : Bool) :
    (∃ err, ∀ next : AnteHandler,
      AnteHandle evm vbd ctx tx simulate next = .value (ctx, some err)) ∨
    (∀ next : AnteHandler, AnteHandle evm vbd ctx tx simulate next = next ctx tx simulate) ∨
    (∃ message, (∀ next : AnteHandler, AnteHandle evm vbd ctx tx simulate next = .panic message) ∧
      ctx.IsReCheckTx = false ∧ BasicOk tx ∧
      ∃ p, tx.protoTxProvider = some p ∧ ShapeOk p) := by
  cases hre : ctx.IsReCheckTx with
  | true => exact Or.inr (Or.inl (fun next => AnteHandle_recheck evm vbd ctx tx simulate next hre))
  | false =>
    cases hv : verdict evm vbd ctx tx with
    | value r =>
      obtain ⟨c, e⟩ := r
      have hc := verdict_ctx evm vbd ctx tx hre c e hv
      subst hc
      cases e with
      | some err =>
        left
        refine ⟨err, fun next => ?_⟩
        rw [AnteHandle_eq _ _ _ _ _ _ hre, hv]
      | none =>
        right
        left
        intro next
        rw [AnteHandle_eq _ _ _ _ _ _ hre, hv]
    | panic message =>
      right
      right
      refine ⟨message, fun next => ?_, rfl, ?_⟩
      · rw [AnteHandle_eq _ _ _ _ _ _ hre, hv]
      · unfold verdict at hv
        rcases basicOk_or_bad tx with hok | ⟨err, hvb, his⟩
        · refine ⟨hok, ?_⟩
          rw [AnteHandle_basicOk _ _ _ _ _ _ hre hok] at hv
          cases hp : tx.protoTxProvider with
          | none =>
            rw [afterValidateBasic_noProto _ _ _ _ _ _ hp] at hv
            cases hv
          | some p =>
            refine ⟨p, rfl, ?_⟩
            by_contra hs
            obtain ⟨description, hd⟩ := afterValidateBasic_shapeBad p hs
            rw [hd evm vbd ctx tx _ _ p.Body.Messages hp] at hv
            cases hv
        · rw [AnteHandle_basicBad _ _ _ _ _ _ hre err hvb his] at hv
          cases hv

/-- C10. Scenario A: a first check of an envelope with empty memo, timeout 0,
one extension option, no signer infos, payer, granter or signatures, and one
Ethereum message with empty `From`, gas 21000 and data decoding to the legacy
variant at gas price `10 ^ 12` wei, with `10 ^ 12` wei to the native unit and
whatever the keeper reports as base fee (absent included): the effective fee is
`21000 * 10 ^ 12` wei, the native fee 21000, and with declared amount 21000 and
gas limit 21000 the envelope is accepted. -/
theorem scenarioA_accepted (evm : EvmPackage) (vbd : EthValidateBasicDecorator) (ctx : Context)
    (tx : Tx) (simulate : Bool) (data ext : Any)
    (hre : ctx.IsReCheckTx = false) (hvb : BasicOk tx)
    (hratio : evm.weiPerNative = 10 ^ 12)
    (hdec : evm.UnpackTxData data = .ok (.LegacyTx (10 ^ 12) 21000))
    (hp : tx.protoTxProvider = some
      { Body := { Messages := [.eth { From := "", Gas := 21000, Data := data }], Memo := "",
                  TimeoutHeight := 0, ExtensionOptions := [ext],
                  NonCriticalExtensionOptions := [] }
        AuthInfo := { SignerInfos := [],
                      Fee := { Amount := [⟨evm.EVMBankDenom, 21000⟩], GasLimit := 21000,
                               Payer := "", Granter := "", fits := by simp } }
        Signatures := [] }) :
    (TxData.LegacyTx (10 ^ 12) 21000).EffectiveFeeWei evm.BASE_FEE_WEI = 21000 * 10 ^ 12 ∧
    msgFee evm (.eth { From := "", Gas := 21000, Data := data }) = 21000 ∧
    Accepts evm vbd ctx tx simulate := by
  have hfee : msgFee evm (.eth { From := "", Gas := 21000, Data := data }) = 21000 := by
    simp only [msgFee, hdec, EvmPackage.WeiToNative, TxData.EffectiveFeeWei, hratio]
    norm_num
  refine ⟨by simp only [TxData.EffectiveFeeWei]; norm_num, hfee, ?_⟩
  refine (accepts_iff_checks evm vbd ctx tx simulate _ hre hp).mpr
    ⟨hvb, ⟨rfl, rfl, rfl, rfl, rfl, rfl, rfl, rfl⟩, ?_, ?_, ?_⟩
  · intro msg hmsg
    simp only [ProtoTx.GetMsgs, List.mem_singleton] at hmsg
    subst hmsg
    exact ⟨_, _, rfl, rfl, hdec, fun h => absurd h.2 (by decide)⟩
  · simp only [ProtoTx.GetMsgs, List.map_cons, List.map_nil, List.sum_cons, List.sum_nil, hfee,
      add_zero]
    rfl
  · simp only [ProtoTx.GetMsgs, List.map_cons, List.map_nil, List.sum_cons, List.sum_nil,
      msgGas, MsgEthereumTx.GetGas, Nat.add_zero]
    norm_num

/-- Scenario A on the concrete package, keeper and continuation. -/
theorem scenarioA_accepted_witness :
    msgFee demoEvm (legacyMsg "" 1000000000000 21000) = 21000 ∧
    AnteHandle demoEvm ⟨keeperAbsent⟩ checkCtx (ethTx (some errNoSignatures) scenarioA) false
      demoNext = demoNext checkCtx (ethTx (some errNoSignatures) scenarioA) false :=
  have h := scenarioA_accepted demoEvm ⟨keeperAbsent⟩ checkCtx (ethTx (some errNoSignatures) scenarioA)
    false ⟨"/eth.evm.v1.LegacyTx", [0, 1000000000000, 21000]⟩ ethExtension rfl
    (basicOk_noSignatures _) rfl rfl rfl
  ⟨h.2.1, h.2.2 demoNext⟩

/-! ## Order of the messages and the empty message sequence -/

/-- C11. Order independence of aggregation: for every permutation of the message
sequence of an envelope, all other fields, the decoder and the chain state
equal, `AnteHandle` accepts the permuted envelope if and only if it accepts the
original; the loop runs to its end on the one sequence exactly when it does on
the other, with the same fee total and gas total, and the sums of the
per-message gas limits and native fees are those of the original. -/
theorem accepts_perm_invariant (evm : EvmPackage) (vbd : EthValidateBasicDecorator)
    (ctx : Context) (tx : Tx) (simulate : Bool) (p : ProtoTx) (msgs : List Msg)
    (hp : tx.protoTxProvider = some p) (hperm : List.Perm p.GetMsgs msgs) :
    (Accepts evm vbd ctx tx simulate ↔
      Accepts evm vbd ctx (tx.withProtoTx (p.withMsgs msgs)) simulate) ∧
    (∀ (baseFee : Option Int) (r : Coins × Nat),
      msgLoop evm baseFee p.GetMsgs [] 0 = .ok r ↔ msgLoop evm baseFee msgs [] 0 = .ok r) ∧
    (p.GetMsgs.map msgGas).sum = (msgs.map msgGas).sum ∧
    (p.GetMsgs.map (msgFee evm)).sum = (msgs.map (msgFee evm)).sum := by
  have hgas : (p.GetMsgs.map msgGas).sum = (msgs.map msgGas).sum :=
    (hperm.map msgGas).sum_eq
  have hfee : (p.GetMsgs.map (msgFee evm)).sum = (msgs.map (msgFee evm)).sum :=
    (hperm.map (msgFee evm)).sum_eq
  have hnil : coinsOf evm.EVMBankDenom 0 = [] := rfl
  have hloop : ∀ (baseFee : Option Int) (l₁ l₂ : List Msg) (r : Coins × Nat),
      List.Perm l₁ l₂ → msgLoop evm baseFee l₁ [] 0 = .ok r →
      msgLoop evm baseFee l₂ [] 0 = .ok r := by
    intro baseFee l₁ l₂ r hl h
    rw [← hnil] at h ⊢
    obtain ⟨h₁, hfit, hr⟩ := msgLoop_ok_inv evm baseFee l₁ 0 0 r (le_refl 0) (by norm_num)
      (by norm_num) h
    have h₂ : ∀ msg ∈ l₂, PassesMsgChecks evm baseFee msg :=
      fun msg hmsg => h₁ msg (hl.mem_iff.mpr hmsg)
    rw [(hl.map (msgFee evm)).sum_eq] at hfit
    rw [msgLoop_ok evm baseFee l₂ h₂ 0 0 (le_refl 0) hfit (by norm_num), hr,
      (hl.map msgGas).sum_eq, (hl.map (msgFee evm)).sum_eq]
  refine ⟨?_, fun baseFee r => ⟨hloop baseFee _ _ r hperm, hloop baseFee _ _ r hperm.symm⟩,
    hgas, hfee⟩
  cases hre : ctx.IsReCheckTx with
  | true =>
    exact ⟨fun _ next => AnteHandle_recheck _ _ _ _ _ next hre,
      fun _ next => AnteHandle_recheck _ _ _ _ _ next hre⟩
  | false =>
    have hp₁ : (tx.withProtoTx (p.withMsgs msgs)).protoTxProvider = some (p.withMsgs msgs) := rfl
    have hmsgs₁ : (p.withMsgs msgs).GetMsgs = msgs := rfl
    rw [accepts_iff_checks evm vbd ctx tx simulate p hre hp,
      accepts_iff_checks evm vbd ctx _ simulate (p.withMsgs msgs) hre hp₁, hmsgs₁, ← hgas, ← hfee]
    constructor
    · rintro ⟨hok, hs, hm, ha, hg⟩
      exact ⟨hok, hs, fun msg hmsg => hm msg (hperm.mem_iff.mpr hmsg), ha, hg⟩
    · rintro ⟨hok, hs, hm, ha, hg⟩
      exact ⟨hok, hs, fun msg hmsg => hm msg (hperm.mem_iff.mp hmsg), ha, hg⟩

/-- Two legacy messages and their swap. -/
theorem accepts_perm_invariant_witness :
    Accepts demoEvm ⟨keeperAbsent⟩ checkCtx (ethTx (some errNoSignatures) twoMsgEnvelope) false ↔
      Accepts demoEvm ⟨keeperAbsent⟩ checkCtx
        ((ethTx (some errNoSignatures) twoMsgEnvelope).withProtoTx
          (twoMsgEnvelope.withMsgs twoMsgSwapped)) false :=
  (accepts_perm_invariant demoEvm ⟨keeperAbsent⟩ checkCtx
    (ethTx (some errNoSignatures) twoMsgEnvelope) false twoMsgEnvelope twoMsgSwapped rfl
    (List.Perm.swap _ _ [])).1

/-- C12. Zero-message boundary (scenario F): on a first check of an envelope
that passes the structural checks and has no message, the loop ends with the
empty fee total and gas total 0, and the envelope is accepted when it declares
the zero amount (no coin) and gas limit 0, and only then. -/
theorem zero_messages_accepted (evm : EvmPackage) (vbd : EthValidateBasicDecorator)
    (ctx : Context) (tx : Tx) (simulate : Bool) (p : ProtoTx)
    (hre : ctx.IsReCheckTx = false) (hvb : BasicOk tx) (hp : tx.protoTxProvider = some p)
    (hs : ShapeOk p) (hzero : p.GetMsgs = []) :
    msgLoop evm (vbd.evmKeeper.BaseFeeMicronibiPerGas ctx) p.GetMsgs [] 0 = .ok ([], 0) ∧
    (∀ denom, Coins.AmountOf [] denom = 0) ∧
    (p.AuthInfo.Fee.Amount = [] → p.AuthInfo.Fee.GasLimit = 0 →
      Accepts evm vbd ctx tx simulate) ∧
    (Accepts evm vbd ctx tx simulate →
      p.AuthInfo.Fee.Amount = [] ∧ p.AuthInfo.Fee.GasLimit = 0) := by
  have hiff := accepts_iff_checks evm vbd ctx tx simulate p hre hp
  have hnil : coinsOf evm.EVMBankDenom 0 = [] := rfl
  rw [hzero] at hiff
  simp only [List.map_nil, List.sum_nil, Nat.zero_mod, hnil] at hiff
  refine ⟨by rw [hzero]; rfl, fun _ => rfl, fun ha hg => ?_, fun hacc => ?_⟩
  · exact hiff.mpr ⟨hvb, hs, fun msg hmsg => absurd hmsg (List.not_mem_nil msg), ha, hg⟩
  · obtain ⟨_, _, _, ha, hg⟩ := hiff.mp hacc
    exact ⟨ha, hg⟩

/-- Scenario F on the concrete package, keeper and continuation. -/
theorem zero_messages_accepted_witness :
    AnteHandle demoEvm ⟨keeperAbsent⟩ checkCtx (ethTx (some errNoSignatures) scenarioF) false
      demoNext = demoNext checkCtx (ethTx (some errNoSignatures) scenarioF) false :=
  (zero_messages_accepted demoEvm ⟨keeperAbsent⟩ checkCtx (ethTx (some errNoSignatures) scenarioF)
    false scenarioF rfl (basicOk_noSignatures _) rfl ⟨rfl, rfl, rfl, rfl, rfl, rfl, rfl, rfl⟩
    rfl).2.2.1 rfl rfl demoNext

end Evmante
